import Mathlib

/-
  Shallow embedding of the `manipulate-string` Raycast extension
  (src/manipulations.ts, src/manipulate-string.tsx) in Lean 4.

  Conventions:
  - JavaScript strings are modelled by Lean `String` (sequences of Unicode
    scalar values); the few places where UTF-16 surrogate behaviour could
    differ are outside the inputs exercised here.
  - A transform of TypeScript type `(text: string) => string | null` is
    modelled as `String → Option String`; a thrown exception and a returned
    `null` are both modelled by `none` (the runner `manipulateString`
    collapses both to the empty string, exactly as the `try/catch` plus
    `value ?? ""` in the source does).
  - JavaScript numbers where they are used as integers are modelled by `Int`
    (the inputs exercised stay far below 2^53, where JS doubles are exact).
  - The ambient clock read by `new Date()` inside the
    "Convert duration from now" transform is made explicit: the catalog and
    the runner take the current epoch milliseconds `now : Int` as a
    parameter.  No other entry mentions `now`.
  - Recursive scanners that are not structurally recursive take an explicit
    fuel argument which callers instantiate with a bound that provably
    exceeds the number of steps (usually the input length plus one), so that
    every definition evaluates by kernel reduction.
-/

set_option maxRecDepth 8192

namespace ManipulateString

/-! ## Small character and list helpers -/

/-- Whitespace characters removed by JavaScript `String.prototype.trim`
(the ASCII portion, which is all the inputs exercised here contain). -/
def isJsSpace (c : Char) : Bool :=
  c = ' ' || c = '\t' || c = '\n' || c = '\r' || c = '\x0b' || c = '\x0c'

/-- JavaScript `text.trim()`. -/
def jsTrim (s : String) : String :=
  String.mk (((s.data.dropWhile isJsSpace).reverse.dropWhile isJsSpace).reverse)

/-- Value of a digit character for a given radix, case-insensitive, as in
JavaScript `parseInt`.  `none` when the character is not a digit of the
radix. -/
def digitValInRadix (radix : Nat) (c : Char) : Option Nat :=
  let v : Option Nat :=
    if '0' ≤ c ∧ c ≤ '9' then some (c.toNat - '0'.toNat)
    else if 'a' ≤ c ∧ c ≤ 'z' then some (c.toNat - 'a'.toNat + 10)
    else if 'A' ≤ c ∧ c ≤ 'Z' then some (c.toNat - 'A'.toNat + 10)
    else none
  match v with
  | some n => if n < radix then some n else none
  | none => none

/-- Longest prefix of digits valid in the radix, accumulated as a number,
together with how many digits were consumed. -/
def takeDigits (radix : Nat) : List Char → Nat → Nat → Nat × Nat
  | [], acc, count => (acc, count)
  | c :: rest, acc, count =>
    match digitValInRadix radix c with
    | some v => takeDigits radix rest (acc * radix + v) (count + 1)
    | none => (acc, count)

/-- JavaScript `parseInt(s, radix)` for radix 2, 10 or 16: skip leading
whitespace, optional sign, for radix 16 an optional `0x`/`0X` prefix, then
the longest prefix of valid digits; `none` models `NaN` (no digits).
Trailing characters are ignored.  The result is exact (`Int`), which agrees
with JS doubles on all inputs whose value stays below 2^53. -/
def parseIntJs (radix : Nat) (s : String) : Option Int :=
  let l := s.data.dropWhile isJsSpace
  let (sign, l) : Int × List Char :=
    match l with
    | '-' :: rest => (-1, rest)
    | '+' :: rest => (1, rest)
    | l => (1, l)
  let l :=
    if radix = 16 then
      match l with
      | '0' :: 'x' :: rest => rest
      | '0' :: 'X' :: rest => rest
      | l => l
    else l
  let (acc, count) := takeDigits radix l 0 0
  if count = 0 then none else some (sign * (acc : Int))

/-- Digit character (lowercase letters beyond 9), as produced by JavaScript
`Number.prototype.toString(radix)`. -/
def radixDigitChar (n : Nat) : Char :=
  if n < 10 then Char.ofNat ('0'.toNat + n)
  else Char.ofNat ('a'.toNat + (n - 10))

/-- Digits of `n` in base `radix`, most significant first; fuel-driven so it
reduces in the kernel.  Callers pass `n + 1` fuel, which always suffices. -/
def natToRadixAux (radix : Nat) : Nat → Nat → List Char → List Char
  | 0, _, acc => acc
  | fuel + 1, n, acc =>
    if n < radix then radixDigitChar n :: acc
    else natToRadixAux radix fuel (n / radix) (radixDigitChar (n % radix) :: acc)

/-- JavaScript `n.toString(radix)` for a nonnegative integer. -/
def natToRadix (radix n : Nat) : String :=
  String.mk (natToRadixAux radix (n + 1) n [])

/-- JavaScript `n.toString(radix)` for an integer (a leading `-` for
negative values, as JS produces). -/
def intToRadix (radix : Nat) (n : Int) : String :=
  if n < 0 then "-" ++ natToRadix radix n.natAbs else natToRadix radix n.natAbs

/-! ## formatBinaryNumber and the numeric base conversions
(src/manipulations.ts lines 329-394 and 411-413) -/

/-- Consecutive 8-character windows of a character list whose length is a
multiple of 8 (the only case in which `formatBinaryNumber` reaches the
slicing at all). -/
def chunks8 : List Char → List (List Char)
  | c1 :: c2 :: c3 :: c4 :: c5 :: c6 :: c7 :: c8 :: rest =>
    [c1, c2, c3, c4, c5, c6, c7, c8] :: chunks8 rest
  | [] => []
  | l => [l]

/-- Embedding of `formatBinaryNumber` (src/manipulations.ts line 411):
`[...new Array(text.length / 8)].map((_, i) => text.slice(i*8, (i+1)*8)).join(" ")`.
In JavaScript `new Array(len)` throws a `RangeError` whenever `len` is not a
(nonnegative) integer, so when `text.length` is not a multiple of 8 the
whole expression throws; `none` models that throw.  When the length is a
multiple of 8 the slices are exactly the consecutive 8-character windows. -/
def formatBinaryNumber (text : String) : Option String :=
  if text.length % 8 = 0 then
    some (String.intercalate " " ((chunks8 text.data).map String.mk))
  else
    none

/-- Entry "Hex(16) to Decimal(10)" (src/manipulations.ts line 330). -/
def hexToDecimal (text : String) : Option String :=
  match parseIntJs 16 (jsTrim text) with
  | none => some ""
  | some n => some (intToRadix 10 n)

/-- Entry "Hex(16) to Binary(2)" (src/manipulations.ts line 341). -/
def hexToBinary (text : String) : Option String :=
  match parseIntJs 16 (jsTrim text) with
  | none => some ""
  | some n => formatBinaryNumber (intToRadix 2 n)

/-- Entry "Decimal(10) to Hex(16)" (src/manipulations.ts line 352). -/
def decimalToHex (text : String) : Option String :=
  match parseIntJs 10 (jsTrim text) with
  | none => some ""
  | some n => some (intToRadix 16 n)

/-- Entry "Decimal(10) to Binary(2)" (src/manipulations.ts line 363). -/
def decimalToBinary (text : String) : Option String :=
  match parseIntJs 10 (jsTrim text) with
  | none => some ""
  | some n => formatBinaryNumber (intToRadix 2 n)

/-- JavaScript `text.replaceAll(" ", "")`. -/
def removeSpaces (s : String) : String :=
  String.mk (s.data.filter (fun c => c ≠ ' '))

/-- Entry "Binary(2) to Hex(16)" (src/manipulations.ts line 374). -/
def binaryToHex (text : String) : Option String :=
  match parseIntJs 2 (removeSpaces (jsTrim text)) with
  | none => some ""
  | some n => some (intToRadix 16 n)

/-- Entry "Binary(2) to Decimal(10)" (src/manipulations.ts line 385). -/
def binaryToDecimal (text : String) : Option String :=
  match parseIntJs 2 (removeSpaces (jsTrim text)) with
  | none => some ""
  | some n => some (intToRadix 10 n)

/-! ## UTF-8 (the byte view of strings used by `Buffer.from(text, "utf-8")`,
hashing, and percent-encoding) -/

/-- UTF-8 encoding of one Unicode scalar value. -/
def utf8EncodeChar (c : Char) : List Nat :=
  let n := c.toNat
  if n < 0x80 then [n]
  else if n < 0x800 then [0xc0 + n / 0x40, 0x80 + n % 0x40]
  else if n < 0x10000 then
    [0xe0 + n / 0x1000, 0x80 + (n / 0x40) % 0x40, 0x80 + n % 0x40]
  else
    [0xf0 + n / 0x40000, 0x80 + (n / 0x1000) % 0x40, 0x80 + (n / 0x40) % 0x40,
      0x80 + n % 0x40]

/-- UTF-8 bytes of a string (`Buffer.from(text, "utf-8")`). -/
def utf8Encode (s : String) : List Nat :=
  s.data.foldr (fun c acc => utf8EncodeChar c ++ acc) []

/-- UTF-8 continuation byte test. -/
def isCont (b : Nat) : Bool := 0x80 ≤ b && b ≤ 0xbf

/-- The U+FFFD replacement character emitted by lenient UTF-8 decoding
(`buffer.toString("utf-8")`). -/
def replChar : Char := Char.ofNat 0xfffd

/-- Lenient UTF-8 decoding as performed by `buffer.toString("utf-8")`:
well-formed sequences decode to their scalar value, and ill-formed bytes
become U+FFFD.  (On ill-formed input Node emits one replacement per
maximal ill-formed subpart; this model may emit one per ill-formed byte,
which agrees with Node on every input exercised here -- all the inputs this
development evaluates decode without any replacement.)  Fuel-driven (each
step consumes at least one byte, so `l.length` fuel always suffices). -/
def utf8DecodeAux : Nat → List Nat → List Char
  | 0, _ => []
  | _, [] => []
  | fuel + 1, b1 :: rest =>
    if b1 < 0x80 then Char.ofNat b1 :: utf8DecodeAux fuel rest
    else if 0xc2 ≤ b1 && b1 ≤ 0xdf then
      match rest with
      | b2 :: rest2 =>
        if isCont b2 then
          Char.ofNat ((b1 - 0xc0) * 0x40 + (b2 - 0x80)) :: utf8DecodeAux fuel rest2
        else replChar :: utf8DecodeAux fuel rest
      | [] => [replChar]
    else if 0xe0 ≤ b1 && b1 ≤ 0xef then
      match rest with
      | b2 :: b3 :: rest3 =>
        if ((b1 = 0xe0 && 0xa0 ≤ b2 && b2 ≤ 0xbf) ||
            (0xe1 ≤ b1 && b1 ≤ 0xec && isCont b2) ||
            (b1 = 0xed && 0x80 ≤ b2 && b2 ≤ 0x9f) ||
            (0xee ≤ b1 && b1 ≤ 0xef && isCont b2)) && isCont b3 then
          Char.ofNat ((b1 - 0xe0) * 0x1000 + (b2 - 0x80) * 0x40 + (b3 - 0x80)) ::
            utf8DecodeAux fuel rest3
        else replChar :: utf8DecodeAux fuel rest
      | _ => replChar :: utf8DecodeAux fuel rest
    else if 0xf0 ≤ b1 && b1 ≤ 0xf4 then
      match rest with
      | b2 :: b3 :: b4 :: rest4 =>
        if ((b1 = 0xf0 && 0x90 ≤ b2 && b2 ≤ 0xbf) ||
            (0xf1 ≤ b1 && b1 ≤ 0xf3 && isCont b2) ||
            (b1 = 0xf4 && 0x80 ≤ b2 && b2 ≤ 0x8f)) && isCont b3 && isCont b4 then
          Char.ofNat ((b1 - 0xf0) * 0x40000 + (b2 - 0x80) * 0x1000 +
              (b3 - 0x80) * 0x40 + (b4 - 0x80)) :: utf8DecodeAux fuel rest4
        else replChar :: utf8DecodeAux fuel rest
      | _ => replChar :: utf8DecodeAux fuel rest
    else replChar :: utf8DecodeAux fuel rest

/-- Lenient UTF-8 decoding of a byte list (see `utf8DecodeAux`). -/
def utf8Decode (l : List Nat) : List Char :=
  utf8DecodeAux l.length l

/-! ## Node `Buffer` hex and base64 codecs
(entries "Hex encoding/decoding", "Base64 encoding/decoding",
src/manipulations.ts lines 18-41) -/

/-- Hex value of a character, case-insensitive. -/
def hexVal (c : Char) : Option Nat := digitValInRadix 16 c

/-- Lowercase hex rendering of a byte list (`buffer.toString("hex")`). -/
def bytesToHex (l : List Nat) : List Char :=
  l.foldr (fun b acc => radixDigitChar (b / 16) :: radixDigitChar (b % 16) :: acc) []

/-- Bytes of the longest prefix of complete hex-digit pairs, as decoded by
`Buffer.from(text, "hex")`: Node stops decoding at the first character that
is not a hex digit (and drops a trailing incomplete pair) instead of
failing. -/
def hexLeadingPairs : List Char → List Nat
  | c1 :: c2 :: rest =>
    match hexVal c1, hexVal c2 with
    | some h1, some h2 => (h1 * 16 + h2) :: hexLeadingPairs rest
    | _, _ => []
  | _ => []

/-- Entry "Hex encoding" (src/manipulations.ts line 19). -/
def hexEncoding (text : String) : Option String :=
  some (String.mk (bytesToHex (utf8Encode text)))

/-- Entry "Hex decoding" (src/manipulations.ts line 25). -/
def hexDecoding (text : String) : Option String :=
  some (String.mk (utf8Decode (hexLeadingPairs text.data)))

/-- Standard base64 alphabet character for a sextet value (< 64). -/
def base64Char (n : Nat) : Char :=
  if n < 26 then Char.ofNat ('A'.toNat + n)
  else if n < 52 then Char.ofNat ('a'.toNat + (n - 26))
  else if n < 62 then Char.ofNat ('0'.toNat + (n - 52))
  else if n = 62 then '+'
  else '/'

/-- Sextet value of a base64 alphabet character.  Node accepts both the
standard and the URL-safe alphabet when decoding. -/
def base64CharVal (c : Char) : Option Nat :=
  if 'A' ≤ c && c ≤ 'Z' then some (c.toNat - 'A'.toNat)
  else if 'a' ≤ c && c ≤ 'z' then some (c.toNat - 'a'.toNat + 26)
  else if '0' ≤ c && c ≤ '9' then some (c.toNat - '0'.toNat + 52)
  else if c = '+' || c = '-' then some 62
  else if c = '/' || c = '_' then some 63
  else none

/-- Standard padded base64 rendering of a byte list
(`buffer.toString("base64")`). -/
def bytesToBase64 : List Nat → List Char
  | b1 :: b2 :: b3 :: rest =>
    base64Char (b1 / 4) :: base64Char ((b1 % 4) * 16 + b2 / 16) ::
      base64Char ((b2 % 16) * 4 + b3 / 64) :: base64Char (b3 % 64) ::
      bytesToBase64 rest
  | [b1, b2] =>
    [base64Char (b1 / 4), base64Char ((b1 % 4) * 16 + b2 / 16),
      base64Char ((b2 % 16) * 4), '=']
  | [b1] => [base64Char (b1 / 4), base64Char ((b1 % 4) * 16), '=', '=']
  | [] => []

/-- Bytes of a sextet list taken in groups of four (a trailing group of two
or three sextets yields one or two bytes; a single trailing sextet is
dropped), which is how Node assembles base64 output after discarding
non-alphabet characters. -/
def sextetsToBytes : List Nat → List Nat
  | a :: b :: c :: d :: rest =>
    (a * 4 + b / 16) :: ((b % 16) * 16 + c / 4) :: ((c % 4) * 64 + d) ::
      sextetsToBytes rest
  | [a, b] => [a * 4 + b / 16]
  | [a, b, c] => [a * 4 + b / 16, (b % 16) * 16 + c / 4]
  | _ => []

/-- Forgiving base64 decoding as performed by `Buffer.from(text, "base64")`:
every character outside the (standard or URL-safe) alphabet, including
whitespace and `=` padding, is ignored rather than reported, and the
remaining sextets are assembled in groups of four. -/
def base64DecodeBytes (l : List Char) : List Nat :=
  sextetsToBytes (l.filterMap base64CharVal)

/-- Entry "Base64 encoding" (src/manipulations.ts line 31). -/
def base64Encoding (text : String) : Option String :=
  some (String.mk (bytesToBase64 (utf8Encode text)))

/-- Entry "Base64 decoding" (src/manipulations.ts line 37). -/
def base64Decoding (text : String) : Option String :=
  some (String.mk (utf8Decode (base64DecodeBytes text.data)))

/-! ## encodeURIComponent / decodeURIComponent
(entries "URL encoding/decoding", src/manipulations.ts lines 42-53) -/

/-- Characters that `encodeURIComponent` leaves unescaped. -/
def isUriUnreserved (c : Char) : Bool :=
  c.isAlpha || c.isDigit || c = '-' || c = '_' || c = '.' || c = '!' ||
    c = '~' || c = '*' || c = Char.ofNat 39 || c = '(' || c = ')'

/-- Uppercase hex digit, as used in percent-escapes. -/
def upperHexDigit (n : Nat) : Char :=
  if n < 10 then Char.ofNat ('0'.toNat + n) else Char.ofNat ('A'.toNat + (n - 10))

/-- Percent-escape of one byte (uppercase hex, as `encodeURIComponent`
produces). -/
def percentByte (b : Nat) : List Char :=
  ['%', upperHexDigit (b / 16), upperHexDigit (b % 16)]

/-- JavaScript `encodeURIComponent`: unreserved characters pass through,
every other character is replaced by the percent-escapes of its UTF-8
bytes.  (The only failure mode of the real function, a lone UTF-16
surrogate, cannot occur for Lean strings.) -/
def encodeURIComponent (s : String) : String :=
  String.mk (s.data.foldr
    (fun c acc =>
      if isUriUnreserved c then c :: acc
      else (utf8EncodeChar c).foldr (fun b acc2 => percentByte b ++ acc2) acc)
    [])

/-- First phase of `decodeURIComponent`: read the text into a byte
stream, replacing each `%HH` escape (two hex digits required, else
`URIError`, i.e. `none`) by its byte and every other character by its
UTF-8 bytes. -/
def uriDecodeBytes : List Char → Option (List Nat)
  | [] => some []
  | c0 :: rest =>
    if c0 = '%' then
      match rest with
      | c1 :: c2 :: rest2 =>
        (match hexVal c1, hexVal c2 with
         | some h1, some h2 => (uriDecodeBytes rest2).map ((h1 * 16 + h2) :: ·)
         | _, _ => none)
      | _ => none
    else (uriDecodeBytes rest).map (fun bs => utf8EncodeChar c0 ++ bs)

/-- Strict UTF-8 decoding: `none` on any ill-formed sequence.  This is
the validation `decodeURIComponent` performs on the decoded byte stream
(an ill-formed escape sequence raises `URIError`).  Fuel-driven like
`utf8DecodeAux`. -/
def utf8DecodeStrictAux : Nat → List Nat → Option (List Char)
  | 0, _ => some []
  | _, [] => some []
  | fuel + 1, b1 :: rest =>
    if b1 < 0x80 then (utf8DecodeStrictAux fuel rest).map (Char.ofNat b1 :: ·)
    else if 0xc2 ≤ b1 && b1 ≤ 0xdf then
      match rest with
      | b2 :: rest2 =>
        if isCont b2 then
          (utf8DecodeStrictAux fuel rest2).map
            (Char.ofNat ((b1 - 0xc0) * 0x40 + (b2 - 0x80)) :: ·)
        else none
      | [] => none
    else if 0xe0 ≤ b1 && b1 ≤ 0xef then
      match rest with
      | b2 :: b3 :: rest3 =>
        if ((b1 = 0xe0 && 0xa0 ≤ b2 && b2 ≤ 0xbf) ||
            (0xe1 ≤ b1 && b1 ≤ 0xec && isCont b2) ||
            (b1 = 0xed && 0x80 ≤ b2 && b2 ≤ 0x9f) ||
            (0xee ≤ b1 && b1 ≤ 0xef && isCont b2)) && isCont b3 then
          (utf8DecodeStrictAux fuel rest3).map
            (Char.ofNat ((b1 - 0xe0) * 0x1000 + (b2 - 0x80) * 0x40 + (b3 - 0x80)) :: ·)
        else none
      | _ => none
    else if 0xf0 ≤ b1 && b1 ≤ 0xf4 then
      match rest with
      | b2 :: b3 :: b4 :: rest4 =>
        if ((b1 = 0xf0 && 0x90 ≤ b2 && b2 ≤ 0xbf) ||
            (0xf1 ≤ b1 && b1 ≤ 0xf3 && isCont b2) ||
            (b1 = 0xf4 && 0x80 ≤ b2 && b2 ≤ 0x8f)) && isCont b3 && isCont b4 then
          (utf8DecodeStrictAux fuel rest4).map
            (Char.ofNat ((b1 - 0xf0) * 0x40000 + (b2 - 0x80) * 0x1000 +
              (b3 - 0x80) * 0x40 + (b4 - 0x80)) :: ·)
        else none
      | _ => none
    else none

/-- Strict UTF-8 decoding of a byte list (see `utf8DecodeStrictAux`). -/
def utf8DecodeStrict (l : List Nat) : Option (List Char) :=
  utf8DecodeStrictAux l.length l

/-- Entry "URL encoding" (src/manipulations.ts line 43). -/
def urlEncoding (text : String) : Option String :=
  some (encodeURIComponent text)

/-- Entry "URL decoding" (src/manipulations.ts line 49): a `URIError`
from `decodeURIComponent` -- a malformed escape, or escaped bytes that do
not form well-formed UTF-8 -- is a throw, i.e. `none`. -/
def urlDecoding (text : String) : Option String :=
  match uriDecodeBytes text.data with
  | none => none
  | some bytes => (utf8DecodeStrict bytes).map String.mk

/-! ## html-entities encode / decode
(entries "HTML encoding/decoding", src/manipulations.ts lines 54-65) -/

/-- The `html-entities` package's `encode` with its default options
(mode `specialChars`): exactly the five special characters are replaced by
named entities, everything else passes through. -/
def htmlEncodeChar (c : Char) : List Char :=
  if c = '&' then "&amp;".data
  else if c = '<' then "&lt;".data
  else if c = '>' then "&gt;".data
  else if c = '"' then "&quot;".data
  else if c = Char.ofNat 39 then "&apos;".data
  else [c]

/-- The `html-entities` package's `decode`, modelled on the named entities
its own `encode` emits (the library also knows the full HTML5 entity table
and numeric references, none of which the statements below exercise);
unrecognised `&` sequences pass through unchanged, as in the library.
Fuel-driven (each step consumes at least one character, so `length` fuel
always suffices). -/
def htmlDecodeAux : Nat → List Char → List Char
  | 0, _ => []
  | _, [] => []
  | fuel + 1, c :: rest =>
    if c = '&' then
      match rest with
      | 'a' :: 'm' :: 'p' :: ';' :: rest2 => '&' :: htmlDecodeAux fuel rest2
      | 'l' :: 't' :: ';' :: rest2 => '<' :: htmlDecodeAux fuel rest2
      | 'g' :: 't' :: ';' :: rest2 => '>' :: htmlDecodeAux fuel rest2
      | 'q' :: 'u' :: 'o' :: 't' :: ';' :: rest2 => '"' :: htmlDecodeAux fuel rest2
      | 'a' :: 'p' :: 'o' :: 's' :: ';' :: rest2 =>
        Char.ofNat 39 :: htmlDecodeAux fuel rest2
      | _ => '&' :: htmlDecodeAux fuel rest
    else c :: htmlDecodeAux fuel rest

/-- Decode a character list (see `htmlDecodeAux`). -/
def htmlDecodeList (l : List Char) : List Char :=
  htmlDecodeAux l.length l

/-- Entry "HTML encoding" (src/manipulations.ts line 55). -/
def htmlEncoding (text : String) : Option String :=
  some (String.mk (text.data.foldr (fun c acc => htmlEncodeChar c ++ acc) []))

/-- Entry "HTML decoding" (src/manipulations.ts line 61). -/
def htmlDecoding (text : String) : Option String :=
  some (String.mk (htmlDecodeList text.data))

/-! ## JSON (`JSON.parse` / `JSON.stringify`)
(entries "Prettify JSON", "Minify JSON", "Escape as JSON string", and used
by "Parse URL", the JWT decoder and the form conversions) -/

/-- JSON values.  Numbers are carried as exact integers: the JSON number
grammar also admits fractions and exponents, which are IEEE doubles in
JavaScript and outside this integer embedding; the parser below rejects
them, and no statement in this file depends on such an input. -/
inductive Json where
  | null : Json
  | bool (b : Bool) : Json
  | num (n : Int) : Json
  | str (s : String) : Json
  | arr (xs : List Json) : Json
  | obj (kvs : List (String × Json)) : Json

/-- JSON insignificant whitespace. -/
def skipWs (l : List Char) : List Char :=
  l.dropWhile (fun c => c = ' ' || c = '\t' || c = '\n' || c = '\r')

/-- Hex value of four digits. -/
def hexVal4 (h1 h2 h3 h4 : Char) : Option Nat :=
  match hexVal h1, hexVal h2, hexVal h3, hexVal h4 with
  | some a, some b, some c, some d => some (a * 0x1000 + b * 0x100 + c * 0x10 + d)
  | _, _, _, _ => none

/-- Body of a JSON string literal, after the opening quote: returns the
decoded characters and the remainder after the closing quote.  Follows
`JSON.parse`: the escapes are exactly the JSON ones and an unescaped
control character (below U+0020) is a syntax error.  (Scope restriction: a
`\uXXXX` escape denoting a UTF-16 surrogate -- which `JSON.parse` keeps,
combining well-formed pairs into one code point -- has no counterpart among
Lean scalar values and becomes U+FFFD here; no statement in this file
parses such an input.) -/
def pjsEscape (k : List Char → Option (List Char × List Char)) :
    List Char → Option (List Char × List Char)
  | [] => none
  | e :: rest2 =>
    if e = '"' then (k rest2).map (fun p => ('"' :: p.1, p.2))
    else if e = '\\' then (k rest2).map (fun p => ('\\' :: p.1, p.2))
    else if e = '/' then (k rest2).map (fun p => ('/' :: p.1, p.2))
    else if e = 'b' then (k rest2).map (fun p => (Char.ofNat 8 :: p.1, p.2))
    else if e = 'f' then (k rest2).map (fun p => (Char.ofNat 12 :: p.1, p.2))
    else if e = 'n' then (k rest2).map (fun p => ('\n' :: p.1, p.2))
    else if e = 'r' then (k rest2).map (fun p => ('\r' :: p.1, p.2))
    else if e = 't' then (k rest2).map (fun p => ('\t' :: p.1, p.2))
    else if e = 'u' then
      match rest2 with
      | h1 :: h2 :: h3 :: h4 :: rest3 =>
        match hexVal4 h1 h2 h3 h4 with
        | none => none
        | some code =>
          if 0xd800 ≤ code ∧ code ≤ 0xdfff then
            (k rest3).map (fun p => (replChar :: p.1, p.2))
          else (k rest3).map (fun p => (Char.ofNat code :: p.1, p.2))
      | _ => none
    else none

def parseJsonStringAux : Nat → List Char → Option (List Char × List Char)
  | 0, _ => none
  | _, [] => none
  | fuel + 1, c :: rest =>
    if c = '"' then some ([], rest)
    else if c = '\\' then pjsEscape (parseJsonStringAux fuel) rest
    else if c.toNat < 0x20 then none
    else (parseJsonStringAux fuel rest).map (fun p => (c :: p.1, p.2))

/-- The string-literal body with its natural fuel (each step consumes at
least one character, so `length` fuel suffices). -/
def parseJsonString (l : List Char) : Option (List Char × List Char) :=
  parseJsonStringAux l.length l

/-- JSON number: optional minus, then an integer with no superfluous
leading zero.  A following `.`, `e` or `E` (fraction/exponent) is outside
the exact-integer embedding and rejected, see `Json`. -/
def parseJsonNumber (l : List Char) : Option (Json × List Char) :=
  let (sign, l1) : Int × List Char :=
    match l with
    | '-' :: rest => (-1, rest)
    | l => (1, l)
  let (acc, count) := takeDigits 10 l1 0 0
  if count = 0 then none
  else
    match l1 with
    | '0' :: d :: _ =>
      if count > 1 ∧ ('0' ≤ d ∧ d ≤ '9') then none
      else
        let rest := l1.drop count
        match rest with
        | '.' :: _ => none
        | 'e' :: _ => none
        | 'E' :: _ => none
        | _ => some (Json.num (sign * (acc : Int)), rest)
    | _ =>
      let rest := l1.drop count
      match rest with
      | '.' :: _ => none
      | 'e' :: _ => none
      | 'E' :: _ => none
      | _ => some (Json.num (sign * (acc : Int)), rest)

/-- Insert a key into an object the way JavaScript property assignment
does during `JSON.parse`: a duplicate key keeps its first position but
takes the later value. -/
def objInsert (kvs : List (String × Json)) (k : String) (v : Json) :
    List (String × Json) :=
  if kvs.any (fun kv => kv.1 = k) then
    kvs.map (fun kv => if kv.1 = k then (k, v) else kv)
  else kvs ++ [(k, v)]

mutual

/-- One JSON value (fuel-driven recursive descent; every step consumes at
least one character, so `length + 1` fuel always suffices). -/
def parseJsonValue : Nat → List Char → Option (Json × List Char)
  | 0, _ => none
  | fuel + 1, l =>
    match skipWs l with
    | [] => none
    | c :: rest =>
      if c = '"' then
        (parseJsonString rest).map (fun p => (Json.str (String.mk p.1), p.2))
      else if c = '[' then
        match skipWs rest with
        | ']' :: rest2 => some (Json.arr [], rest2)
        | _ => parseJsonArrayItems fuel rest []
      else if c = '{' then
        match skipWs rest with
        | '}' :: rest2 => some (Json.obj [], rest2)
        | _ => parseJsonObjItems fuel rest []
      else
        match c :: rest with
        | 'n' :: 'u' :: 'l' :: 'l' :: rest2 => some (Json.null, rest2)
        | 't' :: 'r' :: 'u' :: 'e' :: rest2 => some (Json.bool true, rest2)
        | 'f' :: 'a' :: 'l' :: 's' :: 'e' :: rest2 => some (Json.bool false, rest2)
        | l2 => parseJsonNumber l2

/-- Array items, given the input just after `[` or after a `,`. -/
def parseJsonArrayItems : Nat → List Char → List Json → Option (Json × List Char)
  | 0, _, _ => none
  | fuel + 1, l, acc =>
    match parseJsonValue fuel l with
    | none => none
    | some (v, rest) =>
      match skipWs rest with
      | ',' :: rest2 => parseJsonArrayItems fuel rest2 (acc ++ [v])
      | ']' :: rest2 => some (Json.arr (acc ++ [v]), rest2)
      | _ => none

/-- Object members, given the input just after `{` or after a `,`. -/
def parseJsonObjItems : Nat → List Char → List (String × Json) →
    Option (Json × List Char)
  | 0, _, _ => none
  | fuel + 1, l, acc =>
    match skipWs l with
    | '"' :: rest =>
      match parseJsonString rest with
      | none => none
      | some (kcs, rest2) =>
        match skipWs rest2 with
        | ':' :: rest3 =>
          match parseJsonValue fuel rest3 with
          | none => none
          | some (v, rest4) =>
            let acc2 := objInsert acc (String.mk kcs) v
            match skipWs rest4 with
            | ',' :: rest5 => parseJsonObjItems fuel rest5 acc2
            | '}' :: rest5 => some (Json.obj acc2, rest5)
            | _ => none
        | _ => none
    | _ => none

end

/-- JavaScript `JSON.parse(text)`: parse one value, allow surrounding
whitespace, reject trailing input.  `none` models the thrown
`SyntaxError`. -/
def jsonParse (s : String) : Option Json :=
  match parseJsonValue (s.length + 1) s.data with
  | some (v, rest) => if (skipWs rest).isEmpty then some v else none
  | none => none

/-- One character of `JSON.stringify` string quoting. -/
def jsonEscapeChar (c : Char) : List Char :=
  if c = '"' then ['\\', '"']
  else if c = '\\' then ['\\', '\\']
  else if c = Char.ofNat 8 then ['\\', 'b']
  else if c = Char.ofNat 12 then ['\\', 'f']
  else if c = '\n' then ['\\', 'n']
  else if c = '\r' then ['\\', 'r']
  else if c = '\t' then ['\\', 't']
  else if c.toNat < 0x20 then
    ['\\', 'u', '0', '0', radixDigitChar (c.toNat / 16), radixDigitChar (c.toNat % 16)]
  else [c]

/-- JavaScript `JSON.stringify` applied to a string value: the quoted,
escaped string literal. -/
def jsonQuote (s : String) : String :=
  "\"" ++ String.mk (s.data.foldr (fun c acc => jsonEscapeChar c ++ acc) []) ++ "\""

/-- Compact rendering: `JSON.stringify(v)`, which is also what
`JSON.stringify(v, null, 0)` produces.  Fuel-driven over the value depth;
callers pass a bound that exceeds any possible nesting. -/
def jsonRenderCompact : Nat → Json → String
  | _, Json.null => "null"
  | _, Json.bool true => "true"
  | _, Json.bool false => "false"
  | _, Json.num n => intToRadix 10 n
  | _, Json.str s => jsonQuote s
  | 0, Json.arr _ => ""
  | 0, Json.obj _ => ""
  | fuel + 1, Json.arr xs =>
    "[" ++ String.intercalate "," (xs.map (jsonRenderCompact fuel)) ++ "]"
  | fuel + 1, Json.obj kvs =>
    "\x7b" ++
      String.intercalate ","
        (kvs.map (fun kv => jsonQuote kv.1 ++ ":" ++ jsonRenderCompact fuel kv.2)) ++
      "\x7d"

/-- A run of spaces. -/
def spaces (n : Nat) : String := String.mk (List.replicate n ' ')

/-- Pretty rendering with a two-space indent: `JSON.stringify(v, null, 2)`.
`ind` is the indentation of the surrounding context.  Fuel-driven like
`jsonRenderCompact`. -/
def jsonRenderPretty : Nat → Nat → Json → String
  | _, _, Json.null => "null"
  | _, _, Json.bool true => "true"
  | _, _, Json.bool false => "false"
  | _, _, Json.num n => intToRadix 10 n
  | _, _, Json.str s => jsonQuote s
  | 0, _, Json.arr _ => ""
  | 0, _, Json.obj _ => ""
  | fuel + 1, ind, Json.arr xs =>
    match xs with
    | [] => "[]"
    | _ =>
      "[\n" ++
        String.intercalate ",\n"
          (xs.map (fun x => spaces (ind + 2) ++ jsonRenderPretty fuel (ind + 2) x)) ++
        "\n" ++ spaces ind ++ "]"
  | fuel + 1, ind, Json.obj kvs =>
    match kvs with
    | [] => "\x7b\x7d"
    | _ =>
      "\x7b\n" ++
        String.intercalate ",\n"
          (kvs.map (fun kv =>
            spaces (ind + 2) ++ jsonQuote kv.1 ++ ": " ++
              jsonRenderPretty fuel (ind + 2) kv.2)) ++
        "\n" ++ spaces ind ++ "\x7d"

/-- Entry "Prettify JSON" (src/manipulations.ts line 139):
`JSON.stringify(JSON.parse(text), null, 2)`.  The render fuel
`text.length + 1` exceeds the depth of any value parsed from `text`, since
every nesting level consumes at least one input character. -/
def prettifyJSON (text : String) : Option String :=
  (jsonParse text).map (jsonRenderPretty (text.length + 1) 0)

/-- Entry "Minify JSON" (src/manipulations.ts line 145):
`JSON.stringify(JSON.parse(text), null, 0)`. -/
def minifyJSON (text : String) : Option String :=
  (jsonParse text).map (jsonRenderCompact (text.length + 1))

/-- Entry "Escape as JSON string" (src/manipulations.ts line 151):
`JSON.stringify(text)` on a string value never throws and yields the quoted
literal. -/
def escapeAsJSONString (text : String) : Option String :=
  some (jsonQuote text)

/-! ## Dates (`Date`, `toISOString`, and the timestamp entries,
src/manipulations.ts lines 94-137) -/

/-- Left-pad a natural with zeros to the given width. -/
def padZeros (width n : Nat) : String :=
  let s := natToRadix 10 n
  String.mk (List.replicate (width - s.length) '0') ++ s

/-- Civil date (year, month 1-12, day 1-31) of a day count relative to
1970-01-01, proleptic Gregorian (the calendar ECMAScript prescribes). -/
def civilFromDays (z0 : Int) : Int × Nat × Nat :=
  let z := z0 + 719468
  let era := (if 0 ≤ z then z else z - 146096) / 146097
  let doe := (z - era * 146097).toNat
  let yoe := (doe - doe / 1460 + doe / 36524 - doe / 146096) / 365
  let y : Int := (yoe : Int) + era * 400
  let doy := doe - (365 * yoe + yoe / 4 - yoe / 100)
  let mp := (5 * doy + 2) / 153
  let d := doy - (153 * mp + 2) / 5 + 1
  let m := if mp < 10 then mp + 3 else mp - 9
  (if m ≤ 2 then y + 1 else y, m, d)

/-- Day count relative to 1970-01-01 of a civil date, proleptic
Gregorian. -/
def daysFromCivil (y0 : Int) (m d : Nat) : Int :=
  let y := if m ≤ 2 then y0 - 1 else y0
  let era := (if 0 ≤ y then y else y - 399) / 400
  let yoe := (y - era * 400).toNat
  let mp := if 2 < m then m - 3 else m + 9
  let doy := (153 * mp + 2) / 5 + d - 1
  let doe := yoe * 365 + yoe / 4 - yoe / 100 + doy
  era * 146097 + (doe : Int) - 719468

/-- ECMAScript `Date.prototype.toISOString` on an epoch-millisecond value:
`YYYY-MM-DDTHH:mm:ss.sssZ`, with the expanded `±YYYYYY` year form outside
0..9999.  A time value outside ±8.64e15 is an invalid date and
`toISOString` throws a `RangeError` (`none`). -/
def msToISO (ms : Int) : Option String :=
  if ms < -8640000000000000 ∨ 8640000000000000 < ms then none
  else
    let days := ms.fdiv 86400000
    let msOfDay := (ms.fmod 86400000).toNat
    let (y, m, d) := civilFromDays days
    let yearPart :=
      if 0 ≤ y ∧ y ≤ 9999 then padZeros 4 y.toNat
      else if y < 0 then "-" ++ padZeros 6 y.natAbs
      else "+" ++ padZeros 6 y.toNat
    some (yearPart ++ "-" ++ padZeros 2 m ++ "-" ++ padZeros 2 d ++ "T" ++
      padZeros 2 (msOfDay / 3600000) ++ ":" ++ padZeros 2 (msOfDay % 3600000 / 60000) ++
      ":" ++ padZeros 2 (msOfDay % 60000 / 1000) ++ "." ++ padZeros 3 (msOfDay % 1000) ++
      "Z")

/-- Two decimal digits. -/
def digit2 (a b : Char) : Option Nat :=
  match digitValInRadix 10 a, digitValInRadix 10 b with
  | some x, some y => some (x * 10 + y)
  | _, _ => none

/-- Days in a month of the proleptic Gregorian calendar. -/
def daysInMonth (y : Int) (m : Nat) : Nat :=
  if m = 2 then
    if y % 4 = 0 ∧ (y % 100 ≠ 0 ∨ y % 400 = 0) then 29 else 28
  else if m = 4 ∨ m = 6 ∨ m = 9 ∨ m = 11 then 30
  else 31

/-- Trailing zone designator of a date-time string: epoch-offset to
subtract, in minutes.  An absent designator means local time, which this
model takes to be UTC (the behaviour in a UTC environment). -/
def parseZoneDesignator : List Char → Option Int
  | [] => some 0
  | ['Z'] => some 0
  | ['+', h1, h2, ':', m1, m2] =>
    match digit2 h1 h2, digit2 m1 m2 with
    | some h, some m => if h ≤ 23 ∧ m ≤ 59 then some ((h * 60 + m : Nat) : Int) else none
    | _, _ => none
  | ['-', h1, h2, ':', m1, m2] =>
    match digit2 h1 h2, digit2 m1 m2 with
    | some h, some m => if h ≤ 23 ∧ m ≤ 59 then some (-((h * 60 + m : Nat) : Int)) else none
    | _, _ => none
  | _ => none

/-- Seconds, milliseconds and zone of the tail of a date-time string
(everything after `THH:mm`). -/
def parseSecondsAndZone (l : List Char) : Option (Nat × Nat × Int) :=
  match l with
  | ':' :: s1 :: s2 :: rest =>
    match digit2 s1 s2 with
    | none => none
    | some s =>
      if 59 < s then none
      else
        match rest with
        | '.' :: f1 :: f2 :: f3 :: rest2 =>
          match digitValInRadix 10 f1, digitValInRadix 10 f2, digitValInRadix 10 f3 with
          | some a, some b, some c =>
            (parseZoneDesignator rest2).map (fun off => (s, a * 100 + b * 10 + c, off))
          | _, _, _ => none
        | _ => (parseZoneDesignator rest).map (fun off => (s, 0, off))
  | _ => (parseZoneDesignator l).map (fun off => (0, 0, off))

/-- ECMAScript date-time string parsing (`new Date(string)` /
`Date.parse`), for the Date Time String Format of the ECMAScript
specification: `YYYY-MM-DD`, optionally followed by `THH:mm`, `:ss`,
`.sss` and a zone designator.  Returns the epoch milliseconds; `none`
models an invalid date (`getTime()` is `NaN`).  Engine-specific fallback
formats for non-conforming strings (e.g. `"Jan 1 2020"`) are not modelled;
no statement here uses them.  A string without a zone designator and with
a time part is interpreted in local time; this model assumes a UTC
environment. -/
def dateParse (s : String) : Option Int :=
  match s.data with
  | [y1, y2, y3, y4, '-', m1, m2, '-', d1, d2] =>
    (match digit2 y1 y2, digit2 y3 y4, digit2 m1 m2, digit2 d1 d2 with
     | some yh, some yl, some m, some d =>
       let y : Int := (yh * 100 + yl : Nat)
       if 1 ≤ m ∧ m ≤ 12 ∧ 1 ≤ d ∧ d ≤ daysInMonth y m then
         some (daysFromCivil y m d * 86400000)
       else none
     | _, _, _, _ => none)
  | y1 :: y2 :: y3 :: y4 :: '-' :: m1 :: m2 :: '-' :: d1 :: d2 :: 'T' ::
      h1 :: h2 :: ':' :: mi1 :: mi2 :: rest =>
    (match digit2 y1 y2, digit2 y3 y4, digit2 m1 m2, digit2 d1 d2,
        digit2 h1 h2, digit2 mi1 mi2 with
     | some yh, some yl, some m, some d, some h, some mi =>
       let y : Int := (yh * 100 + yl : Nat)
       if 1 ≤ m ∧ m ≤ 12 ∧ 1 ≤ d ∧ d ≤ daysInMonth y m ∧ h ≤ 23 ∧ mi ≤ 59 then
         (parseSecondsAndZone rest).map (fun szo =>
           daysFromCivil y m d * 86400000 + (h * 3600000 + mi * 60000 : Nat) +
             (szo.1 * 1000 + szo.2.1 : Nat) - szo.2.2 * 60000)
       else none
     | _, _, _, _, _, _ => none)
  | _ => none

/-- JavaScript `(ms / 1000).toString()`: the quotient is a double whose
shortest decimal rendering is the exact decimal expansion (at most three
fractional digits, trailing zeros trimmed). -/
def renderDivBy1000 (ms : Int) : String :=
  let sign := if ms < 0 then "-" else ""
  let q := ms.natAbs / 1000
  let r := ms.natAbs % 1000
  if r = 0 then sign ++ natToRadix 10 q
  else
    let frac := (padZeros 3 r).data.reverse.dropWhile (fun c => c = '0') |>.reverse
    sign ++ natToRadix 10 q ++ "." ++ String.mk frac

/-- Entry "Convert UNIX timestamp (sec) to ISO 8601"
(src/manipulations.ts line 95): a `parseInt` failure gives `NaN`, and
`new Date(NaN).toISOString()` throws. -/
def convertUnixSecToISO (text : String) : Option String :=
  match parseIntJs 10 (jsTrim text) with
  | none => none
  | some n => msToISO (n * 1000)

/-- Entry "Convert ISO 8601 to UNIX timestamp (sec)"
(src/manipulations.ts line 102): an unparseable date returns `null`. -/
def convertISOToUnixSec (text : String) : Option String :=
  (dateParse (jsTrim text)).map renderDivBy1000

/-- Entry "Convert UNIX timestamp (ms) to ISO 8601"
(src/manipulations.ts line 113). -/
def convertUnixMsToISO (text : String) : Option String :=
  match parseIntJs 10 (jsTrim text) with
  | none => none
  | some n => msToISO n

/-- Entry "Convert ISO 8601 to UNIX timestamp (ms)"
(src/manipulations.ts line 120). -/
def convertISOToUnixMs (text : String) : Option String :=
  (dateParse (jsTrim text)).map (intToRadix 10)

/-- Modelled from the spec: `getTimeDifference` lives in `src/utils.ts`,
which is not among the given sources.  Per the spec it "computes
elapsed/remaining time between current instant and parsed input date,
humanized".  This model humanizes the absolute difference as days, hours,
minutes and seconds and marks its direction.  Both arguments are epoch
milliseconds. -/
def getTimeDifference (now target : Int) : String :=
  let diff := target - now
  let a := diff.natAbs
  let core :=
    natToRadix 10 (a / 86400000) ++ " days " ++
    natToRadix 10 (a % 86400000 / 3600000) ++ " hours " ++
    natToRadix 10 (a % 3600000 / 60000) ++ " minutes " ++
    natToRadix 10 (a % 60000 / 1000) ++ " seconds"
  if diff < 0 then core ++ " ago" else "in " ++ core

/-- Entry "Convert duration from now" (src/manipulations.ts line 131):
the only transform that reads the ambient clock (`new Date()`), made
explicit as the parameter `now` (epoch milliseconds).  An unparseable date
is modelled as a failure, following the spec's treatment of unparseable
dates in this family. -/
def convertDurationFromNow (now : Int) (text : String) : Option String :=
  (dateParse (jsTrim text)).map (getTimeDifference now)

/-! ## WHATWG URL (entry "Parse URL", src/manipulations.ts lines 66-93) -/

/-- Hex digit value of an ASCII byte. -/
def hexValByte (b : Nat) : Option Nat :=
  if 0x30 ≤ b ∧ b ≤ 0x39 then some (b - 0x30)
  else if 0x41 ≤ b ∧ b ≤ 0x46 then some (b - 0x41 + 10)
  else if 0x61 ≤ b ∧ b ≤ 0x66 then some (b - 0x61 + 10)
  else none

/-- Lenient percent-decoding at the byte level, as in the
`application/x-www-form-urlencoded` parser behind `URLSearchParams`: a `%`
not followed by two hex digits stays literal.  Fuel-driven; `length` fuel
suffices. -/
def percentDecodeLenientAux : Nat → List Nat → List Nat
  | 0, _ => []
  | _, [] => []
  | fuel + 1, b :: rest =>
    if b = 0x25 then
      match rest with
      | h1 :: h2 :: rest2 =>
        match hexValByte h1, hexValByte h2 with
        | some x, some y => (x * 16 + y) :: percentDecodeLenientAux fuel rest2
        | _, _ => b :: percentDecodeLenientAux fuel rest
      | _ => b :: percentDecodeLenientAux fuel rest
    else b :: percentDecodeLenientAux fuel rest

/-- One `application/x-www-form-urlencoded` token: `+` means space, then
lenient percent-decoding of the UTF-8 bytes. -/
def formUrlDecode (l : List Char) : String :=
  let plussed := l.map (fun c => if c = '+' then ' ' else c)
  let bytes := plussed.foldr (fun c acc => utf8EncodeChar c ++ acc) []
  String.mk (utf8Decode (percentDecodeLenientAux bytes.length bytes))

/-- Name/value pairs of a query string (without the leading `?`), in
order, duplicates kept, as `URLSearchParams` holds them: split on `&`,
drop empty pieces, name before the first `=`, value after it. -/
def searchParamsList (query : String) : List (String × String) :=
  (query.data.splitOn '&').filterMap (fun token =>
    match token with
    | [] => none
    | _ =>
      let name := token.takeWhile (fun c => c ≠ '=')
      let value :=
        match token.dropWhile (fun c => c ≠ '=') with
        | '=' :: rest => rest
        | _ => []
      some (formUrlDecode name, formUrlDecode value))

/-- A parsed URL, already normalized the way the `URL` getters present it.
This models the WHATWG parser on ordinary hierarchical `scheme://...`
URLs: scheme and host are lowercased, the default http/https port is
dropped, an empty path serializes as `/`.  (Path dot-segment removal,
percent-encoding normalization of unusual characters, IDNA and
non-special schemes are outside this subset; no statement here feeds such
an input.) -/
structure URLRec where
  scheme : String
  username : String
  password : String
  hostname : String
  port : String
  pathname : String
  search : String
  hash : String

/-- Characters allowed in a scheme after the first. -/
def isSchemeChar (c : Char) : Bool :=
  c.isAlpha || c.isDigit || c = '+' || c = '-' || c = '.'

/-- WHATWG URL parsing, on the subset described at `URLRec`.  `none`
models the `TypeError` thrown by `new URL` on unparseable input. -/
def parseURLModel (s : String) : Option URLRec :=
  let l := s.data
  let schemeChars := l.takeWhile isSchemeChar
  match l.dropWhile isSchemeChar with
  | ':' :: '/' :: '/' :: rest =>
    (match schemeChars with
     | [] => none
     | c0 :: _ =>
       if c0.isAlpha then
         let scheme := String.mk (schemeChars.map Char.toLower)
         let authority := rest.takeWhile (fun c => c ≠ '/' && c ≠ '?' && c ≠ '#')
         let after := rest.dropWhile (fun c => c ≠ '/' && c ≠ '?' && c ≠ '#')
         let (userinfo, hostport) :=
           if authority.contains '@' then
             let revSplit := authority.reverse.takeWhile (fun c => c ≠ '@')
             (authority.take (authority.length - revSplit.length - 1), revSplit.reverse)
           else ([], authority)
         let username := String.mk (userinfo.takeWhile (fun c => c ≠ ':'))
         let password :=
           match userinfo.dropWhile (fun c => c ≠ ':') with
           | ':' :: rest2 => String.mk rest2
           | _ => ""
         let hostChars := hostport.takeWhile (fun c => c ≠ ':')
         let portChars :=
           match hostport.dropWhile (fun c => c ≠ ':') with
           | ':' :: rest2 => some rest2
           | _ => none
         if hostChars.isEmpty then none
         else
           let hostname := String.mk (hostChars.map Char.toLower)
           let portVal : Option (Option Nat) :=
             match portChars with
             | none => some none
             | some [] => some none
             | some ds =>
               if ds.all Char.isDigit then
                 let (v, _) := takeDigits 10 ds 0 0
                 if v ≤ 65535 then some (some v) else none
               else none
           match portVal with
           | none => none
           | some portNum =>
             let port :=
               match portNum with
               | none => ""
               | some v =>
                 if (scheme = "http" ∧ v = 80) ∨ (scheme = "https" ∧ v = 443) then ""
                 else natToRadix 10 v
             let pathChars := after.takeWhile (fun c => c ≠ '?' && c ≠ '#')
             let afterPath := after.dropWhile (fun c => c ≠ '?' && c ≠ '#')
             let pathname := if pathChars.isEmpty then "/" else String.mk pathChars
             let queryChars :=
               match afterPath with
               | '?' :: rest2 => rest2.takeWhile (fun c => c ≠ '#')
               | _ => []
             let hashChars :=
               match afterPath.dropWhile (fun c => c ≠ '#') with
               | '#' :: rest2 => rest2
               | _ => []
             some
               { scheme := scheme
                 username := username
                 password := password
                 hostname := hostname
                 port := port
                 pathname := pathname
                 search := if queryChars.isEmpty then "" else "?" ++ String.mk queryChars
                 hash := if hashChars.isEmpty then "" else "#" ++ String.mk hashChars }
       else none)
  | _ => none

/-- Accessor `url.host`: hostname plus the non-default port. -/
def urlHost (u : URLRec) : String :=
  if u.port = "" then u.hostname else u.hostname ++ ":" ++ u.port

/-- Accessor `url.origin`. -/
def urlOrigin (u : URLRec) : String :=
  u.scheme ++ "://" ++ urlHost u

/-- Accessor `url.href`: the serialization of the parsed record. -/
def urlHref (u : URLRec) : String :=
  let userinfo :=
    if u.username = "" ∧ u.password = "" then ""
    else if u.password = "" then u.username ++ "@"
    else u.username ++ ":" ++ u.password ++ "@"
  u.scheme ++ "://" ++ userinfo ++ urlHost u ++ u.pathname ++ u.search ++ u.hash

/-- The object `Object.fromEntries(searchParamKeys.map((key) => [key,
url.searchParams.get(key)]))` from src/manipulations.ts line 85:
`searchParams.get` returns the FIRST value bound to the name (or `null`),
and `Object.fromEntries` keeps one property per distinct key at its first
position. -/
def searchParamsObj (ps : List (String × String)) : List (String × Json) :=
  ps.foldl (fun acc p =>
    objInsert acc p.1
      (match ps.find? (fun q => q.1 = p.1) with
       | some q => Json.str q.2
       | none => Json.null)) []

/-- The object `Object.fromEntries(searchParamKeys.map((key) => [key,
url.searchParams.getAll(key)]))` from src/manipulations.ts line 86. -/
def searchAllParamsObj (ps : List (String × String)) : List (String × Json) :=
  ps.foldl (fun acc p =>
    objInsert acc p.1
      (Json.arr ((ps.filter (fun q => q.1 = p.1)).map (fun q => Json.str q.2)))) []

/-- The JSON object the "Parse URL" transform stringifies
(src/manipulations.ts lines 73-88). -/
def parseURLJson (u : URLRec) : Json :=
  let ps := searchParamsList (u.search.drop 1)
  Json.obj
    [("href", Json.str (urlHref u)),
     ("origin", Json.str (urlOrigin u)),
     ("protocol", Json.str (u.scheme ++ ":")),
     ("username", Json.str u.username),
     ("password", Json.str u.password),
     ("host", Json.str (urlHost u)),
     ("port", Json.str u.port),
     ("hostname", Json.str u.hostname),
     ("pathname", Json.str u.pathname),
     ("search", Json.str u.search),
     ("searchParams", Json.obj (searchParamsObj ps)),
     ("searchAllParams", Json.obj (searchAllParamsObj ps)),
     ("hash", Json.str u.hash)]

/-- Entry "Parse URL" (src/manipulations.ts line 67): parse the trimmed
input, emit the structured object pretty-printed with a 2-space indent.
The fixed render fuel 8 exceeds the constant depth (3) of the object. -/
def parseURLTransform (text : String) : Option String :=
  (parseURLModel (jsTrim text)).map (fun u => jsonRenderPretty 8 0 (parseURLJson u))

/-! ## qs (entries "Convert JSON to form" and "Convert form to JSON",
src/manipulations.ts lines 156-169).  The `qs` library is modelled on the
shapes these entries feed it: `qs.stringify` with its default options
(bracket paths for nested objects, `indices` array format, RFC 3986
percent-encoding of keys and values), `qs.parse` with defaults on
bracket-free and bracketed keys.  The library's depth limit, array
reconstitution from numeric indices and duplicate-key array merging are
not modelled; no statement in this file depends on them. -/

/-- Scalar serialization `qs` uses for primitive values. -/
def qsScalar : Json → Option String
  | Json.str s => some s
  | Json.num n => some (intToRadix 10 n)
  | Json.bool true => some "true"
  | Json.bool false => some "false"
  | Json.null => some ""
  | _ => none

/-- Flatten a JSON value to raw (not yet percent-encoded) key/value pairs
with `qs` bracket paths.  Fuel-driven over the nesting depth. -/
def qsFlatten : Nat → String → Json → List (String × String)
  | 0, _, _ => []
  | fuel + 1, path, v =>
    match v with
    | Json.obj kvs =>
      kvs.foldr (fun kv acc => qsFlatten fuel (path ++ "[" ++ kv.1 ++ "]") kv.2 ++ acc) []
    | Json.arr xs =>
      (xs.enum.foldr (fun xi acc =>
        qsFlatten fuel (path ++ "[" ++ natToRadix 10 xi.1 ++ "]") xi.2 ++ acc) [])
    | v =>
      match qsScalar v with
      | some s => [(path, s)]
      | none => []

/-- The call `qs.stringify(json)` with default options.  A top-level scalar yields
the empty string; top-level object keys carry no brackets. -/
def qsStringify (fuel : Nat) : Json → String
  | Json.obj kvs =>
    String.intercalate "&"
      ((kvs.foldr (fun kv acc => qsFlatten fuel kv.1 kv.2 ++ acc) []).map
        (fun p => encodeURIComponent p.1 ++ "=" ++ encodeURIComponent p.2))
  | Json.arr xs =>
    String.intercalate "&"
      ((xs.enum.foldr (fun xi acc => qsFlatten fuel (natToRadix 10 xi.1) xi.2 ++ acc)
          []).map
        (fun p => encodeURIComponent p.1 ++ "=" ++ encodeURIComponent p.2))
  | _ => ""

/-- Entry "Convert JSON to form" (src/manipulations.ts line 157):
`qs.stringify(JSON.parse(text.trim()))`. -/
def convertJSONToForm (text : String) : Option String :=
  (jsonParse (jsTrim text)).map (qsStringify (text.length + 1))

/-- Bracket path segments of a `qs` key: `a[b][c]` becomes `a`, `b`, `c`. -/
def qsKeyPath (k : String) : List String :=
  let base := k.data.takeWhile (fun c => c ≠ '[')
  let rest := k.data.dropWhile (fun c => c ≠ '[')
  let segs := (rest.splitOn '[').filterMap (fun seg =>
    match seg.reverse with
    | ']' :: inner => some (String.mk inner.reverse)
    | [] => none
    | _ => some (String.mk seg))
  String.mk base :: segs

/-- Build the nested object for one key path (later duplicate keys
overwrite, see the scope note above). -/
def qsBuild : List String → String → Json
  | [], v => Json.str v
  | k :: rest, v => Json.obj [(k, qsBuild rest v)]

/-- Merge one key path into an object tree. -/
def qsMerge : Nat → Json → List String → String → Json
  | 0, j, _, _ => j
  | _ + 1, _, [], v => Json.str v
  | fuel + 1, Json.obj kvs, k :: rest, v =>
    (match kvs.find? (fun kv => kv.1 = k) with
     | some kv => Json.obj (objInsert kvs k (qsMerge fuel kv.2 rest v))
     | none => Json.obj (kvs ++ [(k, qsBuild rest v)]))
  | _ + 1, _, k :: rest, v => Json.obj [(k, qsBuild rest v)]

/-- The call `qs.parse` with default options, on the subset described above. -/
def qsParse (s : String) : Json :=
  (s.data.splitOn '&').foldl
    (fun acc token =>
      match token with
      | [] => acc
      | _ =>
        let name := token.takeWhile (fun c => c ≠ '=')
        let value :=
          match token.dropWhile (fun c => c ≠ '=') with
          | '=' :: rest => rest
          | _ => []
        qsMerge (token.length + 1) acc (qsKeyPath (formUrlDecode name))
          (formUrlDecode value))
    (Json.obj [])

/-- Entry "Convert form to JSON" (src/manipulations.ts line 164):
`JSON.stringify(qs.parse(text.trim()), null, 2)`. -/
def convertFormToJSON (text : String) : Option String :=
  some (jsonRenderPretty (text.length + 2) 0 (qsParse (jsTrim text)))

/-! ## JWT extraction (entries "Extract JWT" and "Extract and Decode JWT",
src/manipulations.ts lines 170-211) -/

/-- Characters of the regex class `[a-zA-Z0-9_-]`. -/
def jwtB64Char (c : Char) : Bool :=
  c.isAlpha || c.isDigit || c = '_' || c = '-'

/-- One attempt of the regex
`(eyJ[a-zA-Z0-9_-]+?\.eyJ[a-zA-Z0-9_-]+?\.[a-zA-Z0-9_-]*)` at the current
position: the matched text and the remainder, or `none`.  Because `.` is
not in the repeated class, the lazy `+?` quantifiers admit no backtracking
beyond the first `.` encountered, so each segment is exactly the maximal
class run (nonempty for the first two), and the trailing `*` is the
maximal (possibly empty) run. -/
def jwtTryMatch (l : List Char) : Option (List Char × List Char) :=
  match l with
  | 'e' :: 'y' :: 'J' :: rest =>
    let run1 := rest.takeWhile jwtB64Char
    (match run1 with
     | [] => none
     | _ =>
       match rest.dropWhile jwtB64Char with
       | '.' :: 'e' :: 'y' :: 'J' :: rest2 =>
         let run2 := rest2.takeWhile jwtB64Char
         (match run2 with
          | [] => none
          | _ =>
            match rest2.dropWhile jwtB64Char with
            | '.' :: rest3 =>
              let run3 := rest3.takeWhile jwtB64Char
              some ('e' :: 'y' :: 'J' :: run1 ++ '.' :: 'e' :: 'y' :: 'J' :: run2 ++
                  '.' :: run3,
                rest3.dropWhile jwtB64Char)
            | _ => none)
       | _ => none)
  | _ => none

/-- Global scan (`matchAll` / `match` with the `g` flag): try the pattern
at every position, resuming after each match.  Fuel-driven; every step
consumes at least one character, so `length` fuel suffices. -/
def jwtScan : Nat → List Char → List (List Char)
  | 0, _ => []
  | _, [] => []
  | fuel + 1, c :: rest =>
    match jwtTryMatch (c :: rest) with
    | some (m, after) => m :: jwtScan fuel after
    | none => jwtScan fuel rest

/-- All matches of the JWT regex in the text, in order. -/
def jwtMatches (text : String) : List String :=
  (jwtScan text.data.length text.data).map String.mk

/-- Entry "Extract JWT" (src/manipulations.ts line 171): `text.match`
returns `null` when there is no match. -/
def extractJWT (text : String) : Option String :=
  match jwtMatches text with
  | [] => none
  | ms => some (String.intercalate "\n" ms)

/-- Property read `payload[name]` on a JSON value (a missing property or a
non-object receiver reads as `undefined`). -/
def objGetJson : Json → String → Option Json
  | Json.obj kvs, k => (kvs.find? (fun kv => kv.1 = k)).map (fun kv => kv.2)
  | _, _ => none

/-- JavaScript truthiness of a JSON value. -/
def jsTruthy : Json → Bool
  | Json.null => false
  | Json.bool b => b
  | Json.num n => decide (n ≠ 0)
  | Json.str s => decide (s ≠ "")
  | _ => true

/-- The `payload.iat ? new Date(payload.iat * 1000).toISOString() :
undefined` pattern (src/manipulations.ts lines 200-202).  Outer `none`
models a throw, `some none` the omitted (`undefined`) field.  Scope: a
truthy non-numeric claim, which JS would coerce with `*`, is modelled as
the NaN-date throw; no statement here carries such a claim. -/
def claimISO (payload : Json) (name : String) : Option (Option String) :=
  match objGetJson payload name with
  | none => some none
  | some v =>
    if jsTruthy v then
      match v with
      | Json.num n => (msToISO (n * 1000)).map some
      | _ => none
    else some none

/-- An optional object field (omitted when `undefined`). -/
def optField (name : String) : Option String → List (String × Json)
  | none => []
  | some s => [(name, Json.str s)]

/-- The body of the `map` callback in "Extract and Decode JWT"
(src/manipulations.ts lines 187-208) for one match: splits on `.`, falls
back to the raw match when there are not exactly three segments, otherwise
base64-decodes and `JSON.parse`s header and payload -- where a parse
failure THROWS out of the callback (`none`), there is no fallback on this
path -- and pretty-prints the assembled object. -/
def decodeJwtMatch (m : String) : Option String :=
  match (m.data.splitOn '.').map String.mk with
  | [p0, p1, p2] =>
    (match jsonParse (String.mk (utf8Decode (base64DecodeBytes p0.data))),
        jsonParse (String.mk (utf8Decode (base64DecodeBytes p1.data))) with
     | some header, some payload =>
       (match claimISO payload "iat", claimISO payload "nbf", claimISO payload "exp" with
        | some iatF, some nbfF, some expF =>
          some (jsonRenderPretty (m.length + 1) 0 (Json.obj
            ([("header", header), ("payload", payload)] ++
              optField "iat_iso8601" iatF ++ optField "nbf_iso8601" nbfF ++
              optField "exp_iso8601" expF ++ [("signature", Json.str p2)])))
        | _, _, _ => none)
     | _, _ => none)
  | _ => some m

/-- Apply a fallible function to every element: the whole result fails if
any application fails (the behaviour of `Array.prototype.map` when a
callback throws). -/
def mapOption {α β : Type} (f : α → Option β) : List α → Option (List β)
  | [] => some []
  | a :: rest =>
    match f a, mapOption f rest with
    | some b, some bs => some (b :: bs)
    | _, _ => none

/-- Entry "Extract and Decode JWT" (src/manipulations.ts line 182): the
matches are decoded with `Array.prototype.map`, so a throw in any
callback aborts the whole transform; with no matches the join of the
empty array is `""`. -/
def extractAndDecodeJWT (text : String) : Option String :=
  (mapOption decodeJwtMatch (jwtMatches text)).map (String.intercalate "\n")

/-! ## Tokenizer and the case-conversion entries
(src/manipulations.ts lines 236-328) -/

/-- Word characters for the tokenizer. -/
def isWordChar (c : Char) : Bool := c.isAlpha || c.isDigit

/-- Close the current (reversed) word, if any. -/
def flushWord (cur : List Char) (acc : List String) : List String :=
  match cur with
  | [] => acc
  | _ => String.mk cur.reverse :: acc

/-- One scanner step; the state is (finished words, reversed, ×
current word, reversed). -/
def splitStep (st : List String × List Char) (c : Char) : List String × List Char :=
  let (acc, cur) := st
  if ¬ isWordChar c then (flushWord cur acc, [])
  else
    match cur with
    | [] => (acc, [c])
    | p :: _ =>
      if p.isLower ∧ c.isUpper then (flushWord cur acc, [c])
      else if p.isDigit ≠ c.isDigit then (flushWord cur acc, [c])
      else if p.isUpper ∧ c.isLower ∧ 2 ≤ cur.length then
        (flushWord (cur.drop 1) acc, [c, p])
      else (acc, c :: cur)

/-- Modelled from the spec: `splitIntoWords` lives in `src/utils.ts`,
which is not among the given sources.  Per the spec it splits on
whitespace/punctuation runs, lowercase-to-uppercase humps, digit/letter
transitions, and treats a run of uppercase letters followed by a
lowercase letter as an acronym plus a new word ("HTTPServer" gives
"HTTP", "Server"); tokens are nonempty, and empty input yields no
tokens. -/
def splitIntoWords (text : String) : List String :=
  let (acc, cur) := text.data.foldl splitStep ([], [])
  (flushWord cur acc).reverse

/-- JavaScript `word[0].toUpperCase() + word.slice(1)` (total here: the
tokenizer never yields the empty word on which the JS expression would
throw). -/
def capitalizeWord (w : String) : String :=
  match w.data with
  | [] => ""
  | c :: rest => String.mk (c.toUpper :: rest)

/-- JavaScript `toLowerCase` (ASCII scope, see the header note). -/
def lowerString (s : String) : String := String.mk (s.data.map Char.toLower)

/-- JavaScript `toUpperCase` (ASCII scope). -/
def upperString (s : String) : String := String.mk (s.data.map Char.toUpper)

/-- Entry "Convert camelCase" (src/manipulations.ts line 237): the word at
index 0 is passed through UNCHANGED (`index === 0 ? word : ...`); only
subsequent words are capitalized. -/
def convertCamelCase (text : String) : Option String :=
  some (String.join
    ((splitIntoWords (jsTrim text)).mapIdx (fun i w => if i = 0 then w else capitalizeWord w)))

/-- Entry "Convert PascalCase" (src/manipulations.ts line 248). -/
def convertPascalCase (text : String) : Option String :=
  some (String.join ((splitIntoWords (jsTrim text)).map capitalizeWord))

/-- Entry "Convert lower-kebab-case" (src/manipulations.ts line 255). -/
def convertLowerKebabCase (text : String) : Option String :=
  some (String.intercalate "-" ((splitIntoWords (jsTrim text)).map lowerString))

/-- Entry "Convert UPPER-KEBAB-CASE" (src/manipulations.ts line 262). -/
def convertUpperKebabCase (text : String) : Option String :=
  some (String.intercalate "-" ((splitIntoWords (jsTrim text)).map upperString))

/-- Entry "Convert lower_snake_case" (src/manipulations.ts line 269). -/
def convertLowerSnakeCase (text : String) : Option String :=
  some (String.intercalate "_" ((splitIntoWords (jsTrim text)).map lowerString))

/-- Entry "Convert UPPER_SNAKE_CASE" (src/manipulations.ts line 276). -/
def convertUpperSnakeCase (text : String) : Option String :=
  some (String.intercalate "_" ((splitIntoWords (jsTrim text)).map upperString))

/-- Entry "Convert dot.case" (src/manipulations.ts line 283). -/
def convertDotCase (text : String) : Option String :=
  some (String.intercalate "." ((splitIntoWords (jsTrim text)).map lowerString))

/-- Entry "Convert lowercase" (src/manipulations.ts line 290): applied to
the raw text, no trim, no tokenizer. -/
def convertLowercase (text : String) : Option String :=
  some (lowerString text)

/-- Entry "Convert UPPERCASE" (src/manipulations.ts line 296). -/
def convertUppercase (text : String) : Option String :=
  some (upperString text)

/-- Entry "Convert words lowercase" (src/manipulations.ts line 302). -/
def convertWordsLowercase (text : String) : Option String :=
  some (String.intercalate " " ((splitIntoWords (jsTrim text)).map lowerString))

/-- Entry "Convert First word capitalized" (src/manipulations.ts
line 309). -/
def convertFirstWordCapitalized (text : String) : Option String :=
  some (String.intercalate " "
    ((splitIntoWords (jsTrim text)).mapIdx (fun i w => if i = 0 then capitalizeWord w else w)))

/-- Entry "Convert Words Capitalized" (src/manipulations.ts line 316). -/
def convertWordsCapitalized (text : String) : Option String :=
  some (String.intercalate " " ((splitIntoWords (jsTrim text)).map capitalizeWord))

/-- Entry "Generate fuzzy search regex" (src/manipulations.ts line 323). -/
def generateFuzzySearchRegex (text : String) : Option String :=
  some (String.intercalate ".*" (splitIntoWords (jsTrim text)))

/-! ## Hashes (entries "Calculate md5", "Calculate sha1",
"Calculate sha256", src/manipulations.ts lines 212-235: digest of the
UTF-8 bytes of the input, hex-encoded) -/

/-- Truncation to a 32-bit word. -/
def w32 (n : Nat) : Nat := n % 4294967296

/-- Bitwise complement on 32 bits. -/
def not32 (n : Nat) : Nat := 4294967295 ^^^ n

/-- Left rotation of a 32-bit word. -/
def rotl32 (x r : Nat) : Nat := w32 ((x <<< r) ||| (x >>> (32 - r)))

/-- Right rotation of a 32-bit word. -/
def rotr32 (x r : Nat) : Nat := w32 ((x >>> r) ||| (x <<< (32 - r)))

/-- Little-endian 32-bit words of a byte list (length a multiple of 4). -/
def bytesToWordsLE : List Nat → List Nat
  | b1 :: b2 :: b3 :: b4 :: rest =>
    (b1 + b2 * 256 + b3 * 65536 + b4 * 16777216) :: bytesToWordsLE rest
  | _ => []

/-- Big-endian 32-bit words of a byte list (length a multiple of 4). -/
def bytesToWordsBE : List Nat → List Nat
  | b1 :: b2 :: b3 :: b4 :: rest =>
    (b1 * 16777216 + b2 * 65536 + b3 * 256 + b4) :: bytesToWordsBE rest
  | _ => []

/-- Little-endian bytes of a 32-bit word. -/
def wordToBytesLE (w : Nat) : List Nat :=
  [w % 256, w >>> 8 % 256, w >>> 16 % 256, w >>> 24 % 256]

/-- Big-endian bytes of a 32-bit word. -/
def wordToBytesBE (w : Nat) : List Nat :=
  [w >>> 24 % 256, w >>> 16 % 256, w >>> 8 % 256, w % 256]

/-- Merkle-Damgard padding shared by MD5 (little-endian length) and the
SHA family (big-endian length): `0x80`, zeros to 56 mod 64, then the bit
length in eight bytes. -/
def padMessage (le : Bool) (msg : List Nat) : List Nat :=
  let len := msg.length
  let zeros := (119 - len % 64) % 64
  let bitLen := len * 8
  let lenBytes :=
    if le then (List.range 8).map (fun i => bitLen >>> (8 * i) % 256)
    else (List.range 8).map (fun i => bitLen >>> (8 * (7 - i)) % 256)
  msg ++ 0x80 :: List.replicate zeros 0 ++ lenBytes

/-- 64-byte blocks (fuel-driven; `length` fuel suffices). -/
def chunk64 : Nat → List Nat → List (List Nat)
  | 0, _ => []
  | _, [] => []
  | fuel + 1, l => l.take 64 :: chunk64 fuel (l.drop 64)

/-- MD5 round constants (the standard sine table, written in decimal). -/
def md5K : List Nat :=
  [3614090360, 3905402710, 606105819, 3250441966, 4118548399, 1200080426,
   2821735955, 4249261313, 1770035416, 2336552879, 4294925233, 2304563134,
   1804603682, 4254626195, 2792965006, 1236535329, 4129170786, 3225465664,
   643717713, 3921069994, 3593408605, 38016083, 3634488961, 3889429448,
   568446438, 3275163606, 4107603335, 1163531501, 2850285829, 4243563512,
   1735328473, 2368359562, 4294588738, 2272392833, 1839030562, 4259657740,
   2763975236, 1272893353, 4139469664, 3200236656, 681279174, 3936430074,
   3572445317, 76029189, 3654602809, 3873151461, 530742520, 3299628645,
   4096336452, 1126891415, 2878612391, 4237533241, 1700485571, 2399980690,
   4293915773, 2240044497, 1873313359, 4264355552, 2734768916, 1309151649,
   4149444226, 3174756917, 718787259, 3951481745]

/-- MD5 per-round left-rotation amounts. -/
def md5S : List Nat :=
  [7, 12, 17, 22, 7, 12, 17, 22, 7, 12, 17, 22, 7, 12, 17, 22,
   5, 9, 14, 20, 5, 9, 14, 20, 5, 9, 14, 20, 5, 9, 14, 20,
   4, 11, 16, 23, 4, 11, 16, 23, 4, 11, 16, 23, 4, 11, 16, 23,
   6, 10, 15, 21, 6, 10, 15, 21, 6, 10, 15, 21, 6, 10, 15, 21]

/-- One MD5 round. -/
def md5Round (m : List Nat) (st : Nat × Nat × Nat × Nat) (i : Nat) :
    Nat × Nat × Nat × Nat :=
  let (a, b, c, d) := st
  let fg : Nat × Nat :=
    if i < 16 then ((b &&& c) ||| (not32 b &&& d), i)
    else if i < 32 then ((d &&& b) ||| (not32 d &&& c), (5 * i + 1) % 16)
    else if i < 48 then (b ^^^ c ^^^ d, (3 * i + 5) % 16)
    else (c ^^^ (b ||| not32 d), (7 * i) % 16)
  let tmp := w32 (a + fg.1 + md5K.getD i 0 + m.getD fg.2 0)
  (d, w32 (b + rotl32 tmp (md5S.getD i 0)), b, c)

/-- One MD5 block. -/
def md5Block (st : Nat × Nat × Nat × Nat) (block : List Nat) :
    Nat × Nat × Nat × Nat :=
  let m := bytesToWordsLE block
  let r := (List.range 64).foldl (md5Round m) st
  (w32 (st.1 + r.1), w32 (st.2.1 + r.2.1), w32 (st.2.2.1 + r.2.2.1),
    w32 (st.2.2.2 + r.2.2.2))

/-- MD5 digest bytes of a byte list. -/
def md5Bytes (msg : List Nat) : List Nat :=
  let padded := padMessage true msg
  let st := (chunk64 padded.length padded).foldl md5Block
    (1732584193, 4023233417, 2562383102, 271733878)
  wordToBytesLE st.1 ++ wordToBytesLE st.2.1 ++ wordToBytesLE st.2.2.1 ++
    wordToBytesLE st.2.2.2

/-- Entry "Calculate md5" (src/manipulations.ts line 213). -/
def calculateMd5 (text : String) : Option String :=
  some (String.mk (bytesToHex (md5Bytes (utf8Encode text))))

/-- SHA-1 message schedule: 80 words from 16. -/
def sha1Expand (ws : List Nat) : List Nat :=
  (List.range 80).foldl
    (fun acc i =>
      if i < 16 then acc ++ [ws.getD i 0]
      else acc ++ [rotl32 (acc.getD (i - 3) 0 ^^^ acc.getD (i - 8) 0 ^^^
        acc.getD (i - 14) 0 ^^^ acc.getD (i - 16) 0) 1]) []

/-- One SHA-1 round. -/
def sha1Round (w : List Nat) (st : Nat × Nat × Nat × Nat × Nat) (i : Nat) :
    Nat × Nat × Nat × Nat × Nat :=
  let (a, b, c, d, e) := st
  let fk : Nat × Nat :=
    if i < 20 then ((b &&& c) ||| (not32 b &&& d), 1518500249)
    else if i < 40 then (b ^^^ c ^^^ d, 1859775393)
    else if i < 60 then ((b &&& c) ||| (b &&& d) ||| (c &&& d), 2400959708)
    else (b ^^^ c ^^^ d, 3395469782)
  (w32 (rotl32 a 5 + fk.1 + e + fk.2 + w.getD i 0), a, rotl32 b 30, c, d)

/-- One SHA-1 block. -/
def sha1Block (st : Nat × Nat × Nat × Nat × Nat) (block : List Nat) :
    Nat × Nat × Nat × Nat × Nat :=
  let w := sha1Expand (bytesToWordsBE block)
  let r := (List.range 80).foldl (sha1Round w) st
  (w32 (st.1 + r.1), w32 (st.2.1 + r.2.1), w32 (st.2.2.1 + r.2.2.1),
    w32 (st.2.2.2.1 + r.2.2.2.1), w32 (st.2.2.2.2 + r.2.2.2.2))

/-- SHA-1 digest bytes of a byte list. -/
def sha1Bytes (msg : List Nat) : List Nat :=
  let padded := padMessage false msg
  let st := (chunk64 padded.length padded).foldl sha1Block
    (1732584193, 4023233417, 2562383102, 271733878, 3285377520)
  wordToBytesBE st.1 ++ wordToBytesBE st.2.1 ++ wordToBytesBE st.2.2.1 ++
    wordToBytesBE st.2.2.2.1 ++ wordToBytesBE st.2.2.2.2

/-- Entry "Calculate sha1" (src/manipulations.ts line 221). -/
def calculateSha1 (text : String) : Option String :=
  some (String.mk (bytesToHex (sha1Bytes (utf8Encode text))))

/-- SHA-256 round constants (the standard cube-root table, written in
decimal). -/
def sha256K : List Nat :=
  [1116352408, 1899447441, 3049323471, 3921009573, 961987163, 1508970993,
   2453635748, 2870763221, 3624381080, 310598401, 607225278, 1426881987,
   1925078388, 2162078206, 2614888103, 3248222580, 3835390401, 4022224774,
   264347078, 604807628, 770255983, 1249150122, 1555081692, 1996064986,
   2554220882, 2821834349, 2952996808, 3210313671, 3336571891, 3584528711,
   113926993, 338241895, 666307205, 773529912, 1294757372, 1396182291,
   1695183700, 1986661051, 2177026350, 2456956037, 2730485921, 2820302411,
   3259730800, 3345764771, 3516065817, 3600352804, 4094571909, 275423344,
   430227734, 506948616, 659060556, 883997877, 958139571, 1322822218,
   1537002063, 1747873779, 1955562222, 2024104815, 2227730452, 2361852424,
   2428436474, 2756734187, 3204031479, 3329325298]

/-- SHA-256 message schedule: 64 words from 16. -/
def sha256Expand (ws : List Nat) : List Nat :=
  (List.range 64).foldl
    (fun acc i =>
      if i < 16 then acc ++ [ws.getD i 0]
      else
        let x15 := acc.getD (i - 15) 0
        let x2 := acc.getD (i - 2) 0
        let s0 := rotr32 x15 7 ^^^ rotr32 x15 18 ^^^ (x15 >>> 3)
        let s1 := rotr32 x2 17 ^^^ rotr32 x2 19 ^^^ (x2 >>> 10)
        acc ++ [w32 (acc.getD (i - 16) 0 + s0 + acc.getD (i - 7) 0 + s1)]) []

/-- The SHA-256 working state. -/
structure Sha256State where
  a : Nat
  b : Nat
  c : Nat
  d : Nat
  e : Nat
  f : Nat
  g : Nat
  h : Nat

/-- One SHA-256 round. -/
def sha256Round (w : List Nat) (st : Sha256State) (i : Nat) : Sha256State :=
  let s1 := rotr32 st.e 6 ^^^ rotr32 st.e 11 ^^^ rotr32 st.e 25
  let ch := (st.e &&& st.f) ^^^ (not32 st.e &&& st.g)
  let t1 := w32 (st.h + s1 + ch + sha256K.getD i 0 + w.getD i 0)
  let s0 := rotr32 st.a 2 ^^^ rotr32 st.a 13 ^^^ rotr32 st.a 22
  let mj := (st.a &&& st.b) ^^^ (st.a &&& st.c) ^^^ (st.b &&& st.c)
  let t2 := w32 (s0 + mj)
  { a := w32 (t1 + t2), b := st.a, c := st.b, d := st.c,
    e := w32 (st.d + t1), f := st.e, g := st.f, h := st.g }

/-- One SHA-256 block. -/
def sha256Block (st : Sha256State) (block : List Nat) : Sha256State :=
  let w := sha256Expand (bytesToWordsBE block)
  let r := (List.range 64).foldl (sha256Round w) st
  { a := w32 (st.a + r.a), b := w32 (st.b + r.b), c := w32 (st.c + r.c),
    d := w32 (st.d + r.d), e := w32 (st.e + r.e), f := w32 (st.f + r.f),
    g := w32 (st.g + r.g), h := w32 (st.h + r.h) }

/-- SHA-256 digest bytes of a byte list. -/
def sha256Bytes (msg : List Nat) : List Nat :=
  let padded := padMessage false msg
  let st := (chunk64 padded.length padded).foldl sha256Block
    { a := 1779033703, b := 3144134277, c := 1013904242, d := 2773480762,
      e := 1359893119, f := 2600822924, g := 528734635, h := 1541459225 }
  wordToBytesBE st.a ++ wordToBytesBE st.b ++ wordToBytesBE st.c ++
    wordToBytesBE st.d ++ wordToBytesBE st.e ++ wordToBytesBE st.f ++
    wordToBytesBE st.g ++ wordToBytesBE st.h

/-- Entry "Calculate sha256" (src/manipulations.ts line 229). -/
def calculateSha256 (text : String) : Option String :=
  some (String.mk (bytesToHex (sha256Bytes (utf8Encode text))))

/-! ## The catalog and the runner
(src/manipulations.ts lines 6-16, 11-395 and 397-409) -/

/-- The `Manipulation` record type (src/manipulations.ts line 6). -/
structure Manipulation where
  key : String
  manipulation : String → Option String

/-- One element of the list `manipulateString` returns
(`{ key: string; value: string }`, src/manipulations.ts line 397). -/
structure ManipulationResult where
  key : String
  value : String
deriving DecidableEq

/-- The catalog `manipulations` (src/manipulations.ts lines 11-395), in
source order.  The ambient clock consulted by "Convert duration from now"
is the explicit parameter `now`; no other entry mentions it. -/
def manipulations (now : Int) : List Manipulation :=
  [⟨"Raw", fun text => some text⟩,
   ⟨"Hex encoding", hexEncoding⟩,
   ⟨"Hex decoding", hexDecoding⟩,
   ⟨"Base64 encoding", base64Encoding⟩,
   ⟨"Base64 decoding", base64Decoding⟩,
   ⟨"URL encoding", urlEncoding⟩,
   ⟨"URL decoding", urlDecoding⟩,
   ⟨"HTML encoding", htmlEncoding⟩,
   ⟨"HTML decoding", htmlDecoding⟩,
   ⟨"Parse URL", parseURLTransform⟩,
   ⟨"Convert UNIX timestamp (sec) to ISO 8601", convertUnixSecToISO⟩,
   ⟨"Convert ISO 8601 to UNIX timestamp (sec)", convertISOToUnixSec⟩,
   ⟨"Convert UNIX timestamp (ms) to ISO 8601", convertUnixMsToISO⟩,
   ⟨"Convert ISO 8601 to UNIX timestamp (ms)", convertISOToUnixMs⟩,
   ⟨"Convert duration from now", convertDurationFromNow now⟩,
   ⟨"Prettify JSON", prettifyJSON⟩,
   ⟨"Minify JSON", minifyJSON⟩,
   ⟨"Escape as JSON string", escapeAsJSONString⟩,
   ⟨"Convert JSON to form", convertJSONToForm⟩,
   ⟨"Convert form to JSON", convertFormToJSON⟩,
   ⟨"Extract JWT", extractJWT⟩,
   ⟨"Extract and Decode JWT", extractAndDecodeJWT⟩,
   ⟨"Calculate md5", calculateMd5⟩,
   ⟨"Calculate sha1", calculateSha1⟩,
   ⟨"Calculate sha256", calculateSha256⟩,
   ⟨"Convert camelCase", convertCamelCase⟩,
   ⟨"Convert PascalCase", convertPascalCase⟩,
   ⟨"Convert lower-kebab-case", convertLowerKebabCase⟩,
   ⟨"Convert UPPER-KEBAB-CASE", convertUpperKebabCase⟩,
   ⟨"Convert lower_snake_case", convertLowerSnakeCase⟩,
   ⟨"Convert UPPER_SNAKE_CASE", convertUpperSnakeCase⟩,
   ⟨"Convert dot.case", convertDotCase⟩,
   ⟨"Convert lowercase", convertLowercase⟩,
   ⟨"Convert UPPERCASE", convertUppercase⟩,
   ⟨"Convert words lowercase", convertWordsLowercase⟩,
   ⟨"Convert First word capitalized", convertFirstWordCapitalized⟩,
   ⟨"Convert Words Capitalized", convertWordsCapitalized⟩,
   ⟨"Generate fuzzy search regex", generateFuzzySearchRegex⟩,
   ⟨"Hex(16) to Decimal(10)", hexToDecimal⟩,
   ⟨"Hex(16) to Binary(2)", hexToBinary⟩,
   ⟨"Decimal(10) to Hex(16)", decimalToHex⟩,
   ⟨"Decimal(10) to Binary(2)", decimalToBinary⟩,
   ⟨"Binary(2) to Hex(16)", binaryToHex⟩,
   ⟨"Binary(2) to Decimal(10)", binaryToDecimal⟩]

/-- The runner `manipulateString` (src/manipulations.ts lines 397-409):
one result per catalog entry, in catalog order; a transform that throws
(`try/catch`) or returns `null` contributes the empty string
(`value ?? ""`). -/
def manipulateString (now : Int) (s : String) : List ManipulationResult :=
  (manipulations now).map (fun converter =>
    { key := converter.key, value := (converter.manipulation s).getD "" })

/-! ## Spec-side definitions and predicates used by the verification
statements (each written from the spec's words, for comparison with the
code-side definitions above) -/

/-- Spec-side definition, written from the spec's words for comparison
with the code: "a mapping of each distinct query-parameter name to its
LAST value". -/
def searchParamsObjSpecLast (ps : List (String × String)) : List (String × Json) :=
  ps.foldl (fun acc p =>
    objInsert acc p.1
      (match ps.reverse.find? (fun q => q.1 = p.1) with
       | some q => Json.str q.2
       | none => Json.null)) []

/-- Spec-side variant of the "Parse URL" object with the last-value
mapping the spec describes. -/
def parseURLJsonSpecLast (u : URLRec) : Json :=
  let ps := searchParamsList (u.search.drop 1)
  Json.obj
    [("href", Json.str (urlHref u)),
     ("origin", Json.str (urlOrigin u)),
     ("protocol", Json.str (u.scheme ++ ":")),
     ("username", Json.str u.username),
     ("password", Json.str u.password),
     ("host", Json.str (urlHost u)),
     ("port", Json.str u.port),
     ("hostname", Json.str u.hostname),
     ("pathname", Json.str u.pathname),
     ("search", Json.str u.search),
     ("searchParams", Json.obj (searchParamsObjSpecLast ps)),
     ("searchAllParams", Json.obj (searchAllParamsObj ps)),
     ("hash", Json.str u.hash)]

/-- Spec-side definition, written from the spec's words for comparison
with the code: "camelCase lowercases first token and capitalizes (first
letter uppercase, remainder unchanged) subsequent tokens, joined with no
separator". -/
def convertCamelCaseSpec (text : String) : String :=
  String.join ((splitIntoWords (jsTrim text)).mapIdx
    (fun i w => if i = 0 then lowerString w else capitalizeWord w))

/-- Printable text: every character in the printable ASCII range
(U+0020 to U+007E). -/
def printableText (s : String) : Bool :=
  s.data.all (fun c => 0x20 ≤ c.toNat && c.toNat ≤ 0x7e)

/-! ## Verification of the claims -/

/-- C1: for every input string `x` (and every clock value), including the
empty string, `manipulateString` returns exactly one (key, value) pair per
catalog entry, with the keys equal to the catalog labels in catalog order,
regardless of how many transforms fail. -/
theorem manipulateString_one_result_per_entry_in_order :
    ∀ (now : Int) (x : String),
      (manipulateString now x).length = (manipulations now).length ∧
      (manipulateString now x).map (fun r => r.key) =
        (manipulations now).map (fun m => m.key) ∧
      (manipulateString now x).map (fun r => r.key) =
        ["Raw", "Hex encoding", "Hex decoding", "Base64 encoding",
         "Base64 decoding", "URL encoding", "URL decoding", "HTML encoding",
         "HTML decoding", "Parse URL", "Convert UNIX timestamp (sec) to ISO 8601",
         "Convert ISO 8601 to UNIX timestamp (sec)",
         "Convert UNIX timestamp (ms) to ISO 8601",
         "Convert ISO 8601 to UNIX timestamp (ms)", "Convert duration from now",
         "Prettify JSON", "Minify JSON", "Escape as JSON string",
         "Convert JSON to form", "Convert form to JSON", "Extract JWT",
         "Extract and Decode JWT", "Calculate md5", "Calculate sha1",
         "Calculate sha256", "Convert camelCase", "Convert PascalCase",
         "Convert lower-kebab-case", "Convert UPPER-KEBAB-CASE",
         "Convert lower_snake_case", "Convert UPPER_SNAKE_CASE",
         "Convert dot.case", "Convert lowercase", "Convert UPPERCASE",
         "Convert words lowercase", "Convert First word capitalized",
         "Convert Words Capitalized", "Generate fuzzy search regex",
         "Hex(16) to Decimal(10)", "Hex(16) to Binary(2)",
         "Decimal(10) to Hex(16)", "Decimal(10) to Binary(2)",
         "Binary(2) to Hex(16)", "Binary(2) to Decimal(10)"] := by
  intro now x
  exact ⟨rfl, rfl, rfl⟩

/-- C2: the runner never propagates a failure: a transform that throws or
returns `null` is recorded as the empty-string value for its entry, every
entry's value is either the transform's returned string or that empty
string, and in particular on the input "not json" the entry labeled
"Prettify JSON" carries the empty string. -/
theorem manipulateString_recovers_failures :
    (∀ (now : Int) (x : String) (m : Manipulation), m ∈ manipulations now →
      m.manipulation x = none →
      (⟨m.key, ""⟩ : ManipulationResult) ∈ manipulateString now x) ∧
    (∀ (now : Int) (x : String),
      (manipulateString now x).all (fun r =>
        (r.value == "") ||
        (manipulations now).any (fun m =>
          m.key == r.key && m.manipulation x == some r.value)) = true) ∧
    (∀ now : Int,
      (manipulateString now "not json").find? (fun r => r.key = "Prettify JSON") =
        some ⟨"Prettify JSON", ""⟩) := by
  refine ⟨?_, ?_, ?_⟩
  · intro now x m hm hnone
    rw [manipulateString, List.mem_map]
    exact ⟨m, hm, by rw [hnone]; rfl⟩
  · intro now x
    rw [List.all_eq_true]
    intro r hr
    rw [manipulateString, List.mem_map] at hr
    obtain ⟨m, hm, rfl⟩ := hr
    cases h : m.manipulation x with
    | none => simp [h]
    | some v =>
      refine Bool.or_eq_true _ _ |>.mpr (Or.inr ?_)
      rw [List.any_eq_true]
      exact ⟨m, hm, by simp [h]⟩
  · intro now
    rfl

/-- Witness for `manipulateString_recovers_failures` at a concrete
failing transform. -/
theorem manipulateString_recovers_failures_witness :
    (⟨"Prettify JSON", ""⟩ : ManipulationResult) ∈ manipulateString 0 "not json" :=
  manipulateString_recovers_failures.1 0 "not json"
    ⟨"Prettify JSON", prettifyJSON⟩
    (by repeat first | exact List.Mem.head _ | apply List.Mem.tail)
    (by rfl)

/-- C3 (the code bug): on the input "5", whose binary digit string is
"101" (length 3, not a multiple of 8), the spec promises the grouped
output with a shorter final window, but `formatBinaryNumber` evaluates
`new Array(3 / 8)` -- a `RangeError` -- so the transform throws and the
runner records the empty string; lengths that are exact multiples of 8
work as specified. -/
theorem formatBinaryNumber_throws_on_input_5 :
    intToRadix 2 5 = "101" ∧
    formatBinaryNumber "101" = none ∧
    decimalToBinary "5" = none ∧
    hexToBinary "5" = none ∧
    (manipulateString 0 "5").find? (fun r => r.key = "Decimal(10) to Binary(2)") =
      some ⟨"Decimal(10) to Binary(2)", ""⟩ ∧
    (manipulateString 0 "5").find? (fun r => r.key = "Hex(16) to Binary(2)") =
      some ⟨"Hex(16) to Binary(2)", ""⟩ ∧
    formatBinaryNumber "10101010" = some "10101010" ∧
    decimalToBinary "43690" = some "10101010 10101010" := by
  exact ⟨rfl, rfl, rfl, rfl, rfl, rfl, rfl, rfl⟩

/-- C7 (counterexample): `manipulateString` is NOT a pure function of the
input string alone -- evaluated at two different instants (here epoch 0
and two days later) on the same input, the result sequences differ,
because "Convert duration from now" reads the clock. -/
theorem manipulateString_not_time_invariant :
    manipulateString 0 "2020-01-01T00:00:00.000Z" ≠
      manipulateString 172800000 "2020-01-01T00:00:00.000Z" := by
  intro h
  have h2 := congrArg
    (List.find? (fun r => r.key = "Convert duration from now")) h
  revert h2
  decide

/-- C7 (amended): every transform except "Convert duration from now" is a
pure function of the input string: at any two instants the result
sequences agree on all other entries. -/
theorem manipulateString_pure_except_duration :
    ∀ (t1 t2 : Int) (x : String),
      (manipulateString t1 x).filter
          (fun r => !(r.key == "Convert duration from now")) =
        (manipulateString t2 x).filter
          (fun r => !(r.key == "Convert duration from now")) := by
  intro t1 t2 x
  rfl

/-- C4 (counterexample): on the URL `http://example.com/?a=1&a=2`, whose
parameter `a` is repeated, the transform's single-value mapping carries
the FIRST value "1" (because `url.searchParams.get` returns the first
value bound to a name), not the last value "2" that the claim states; the
actual output and the claim's predicted output are distinct strings. -/
theorem parseURL_repeated_param_takes_first_value :
    parseURLModel (jsTrim "http://example.com/?a=1&a=2") =
      some { scheme := "http", username := "", password := "",
             hostname := "example.com", port := "", pathname := "/",
             search := "?a=1&a=2", hash := "" } ∧
    searchParamsList "a=1&a=2" = [("a", "1"), ("a", "2")] ∧
    parseURLTransform "http://example.com/?a=1&a=2" =
      some ("\x7b\n  \"href\": \"http://example.com/?a=1&a=2\",\n  \"origin\": \"http://example.com\",\n  \"protocol\": \"http:\",\n  \"username\": \"\",\n  \"password\": \"\",\n  \"host\": \"example.com\",\n  \"port\": \"\",\n  \"hostname\": \"example.com\",\n  \"pathname\": \"/\",\n  \"search\": \"?a=1&a=2\",\n  \"searchParams\": \x7b\n    \"a\": \"1\"\n  \x7d,\n  \"searchAllParams\": \x7b\n    \"a\": [\n      \"1\",\n      \"2\"\n    ]\n  \x7d,\n  \"hash\": \"\"\n\x7d") ∧
    jsonRenderPretty 8 0 (parseURLJsonSpecLast
      { scheme := "http", username := "", password := "",
        hostname := "example.com", port := "", pathname := "/",
        search := "?a=1&a=2", hash := "" }) =
      "\x7b\n  \"href\": \"http://example.com/?a=1&a=2\",\n  \"origin\": \"http://example.com\",\n  \"protocol\": \"http:\",\n  \"username\": \"\",\n  \"password\": \"\",\n  \"host\": \"example.com\",\n  \"port\": \"\",\n  \"hostname\": \"example.com\",\n  \"pathname\": \"/\",\n  \"search\": \"?a=1&a=2\",\n  \"searchParams\": \x7b\n    \"a\": \"2\"\n  \x7d,\n  \"searchAllParams\": \x7b\n    \"a\": [\n      \"1\",\n      \"2\"\n    ]\n  \x7d,\n  \"hash\": \"\"\n\x7d" ∧
    ("\x7b\n  \"href\": \"http://example.com/?a=1&a=2\",\n  \"origin\": \"http://example.com\",\n  \"protocol\": \"http:\",\n  \"username\": \"\",\n  \"password\": \"\",\n  \"host\": \"example.com\",\n  \"port\": \"\",\n  \"hostname\": \"example.com\",\n  \"pathname\": \"/\",\n  \"search\": \"?a=1&a=2\",\n  \"searchParams\": \x7b\n    \"a\": \"1\"\n  \x7d,\n  \"searchAllParams\": \x7b\n    \"a\": [\n      \"1\",\n      \"2\"\n    ]\n  \x7d,\n  \"hash\": \"\"\n\x7d" : String) ≠
      "\x7b\n  \"href\": \"http://example.com/?a=1&a=2\",\n  \"origin\": \"http://example.com\",\n  \"protocol\": \"http:\",\n  \"username\": \"\",\n  \"password\": \"\",\n  \"host\": \"example.com\",\n  \"port\": \"\",\n  \"hostname\": \"example.com\",\n  \"pathname\": \"/\",\n  \"search\": \"?a=1&a=2\",\n  \"searchParams\": \x7b\n    \"a\": \"2\"\n  \x7d,\n  \"searchAllParams\": \x7b\n    \"a\": [\n      \"1\",\n      \"2\"\n    ]\n  \x7d,\n  \"hash\": \"\"\n\x7d" := by
  refine ⟨rfl, rfl, rfl, rfl, ?_⟩
  decide

/-- C4 (amended): for every input that parses as a URL the transform
emits the pretty-printed JSON with fields href, origin, protocol,
username, password, host, port, hostname, pathname, search, the
single-value parameter mapping, the all-values parameter mapping and
hash; for every input that does not parse it fails; and the single-value
mapping binds each name to its FIRST value (shown for an arbitrary
repeated pair). -/
theorem parseURL_emits_fields_with_first_value :
    (∀ s, parseURLModel (jsTrim s) = none → parseURLTransform s = none) ∧
    (∀ s u, parseURLModel (jsTrim s) = some u →
      parseURLTransform s = some (jsonRenderPretty 8 0 (parseURLJson u))) ∧
    (∀ k v1 v2 : String,
      searchParamsObj [(k, v1), (k, v2)] = [(k, Json.str v1)]) := by
  refine ⟨?_, ?_, ?_⟩
  · intro s h
    simp [parseURLTransform, h]
  · intro s u h
    simp [parseURLTransform, h]
  · intro k v1 v2
    simp [searchParamsObj, objInsert, List.find?]

/-- Witness for `parseURL_emits_fields_with_first_value` at concrete
inputs. -/
theorem parseURL_emits_fields_with_first_value_witness :
    parseURLTransform "nope" = none ∧
    parseURLTransform "http://h.example/p?x=5" =
      some (jsonRenderPretty 8 0 (parseURLJson
        { scheme := "http", username := "", password := "",
          hostname := "h.example", port := "", pathname := "/p",
          search := "?x=5", hash := "" })) ∧
    searchParamsObj [("a", "1"), ("a", "2")] = [("a", Json.str "1")] :=
  ⟨parseURL_emits_fields_with_first_value.1 "nope" (by rfl),
   parseURL_emits_fields_with_first_value.2.1 "http://h.example/p?x=5" _ (by rfl),
   parseURL_emits_fields_with_first_value.2.2 "a" "1" "2"⟩

/-- Mapping with `mapOption` fails as soon as one element fails. -/
theorem mapOption_eq_none {α β : Type} (f : α → Option β) :
    ∀ (l : List α) (a : α), a ∈ l → f a = none → mapOption f l = none := by
  intro l
  induction l with
  | nil => intro a ha _; cases ha
  | cons h t ih =>
    intro a ha hfa
    rcases List.mem_cons.mp ha with rfl | hmem
    · simp [mapOption, hfa]
    · cases hfh : f h with
      | none => simp [mapOption, hfh]
      | some b => simp [mapOption, hfh, ih a hmem hfa]

/-- C5 (counterexample): the input holds two regex matches; in the first,
the header segment `eyJhIjoxfQ` decodes to valid JSON but the payload
segment `eyJx` decodes to the non-JSON bytes `{"q`, so its `JSON.parse`
throws and the WHOLE transform fails -- the runner records the empty
string -- even though the second match decodes fine on its own.  The
claim's promise that the bad match would fall back to its raw text while
the other is still emitted is false here. -/
theorem extractAndDecodeJWT_one_bad_match_empties_all :
    jwtMatches "eyJhIjoxfQ.eyJx.s and eyJhbGciOiJIUzI1NiJ9.eyJzdWIiOiIxMjM0NTY3ODkwIn0.sig" =
      ["eyJhIjoxfQ.eyJx.s", "eyJhbGciOiJIUzI1NiJ9.eyJzdWIiOiIxMjM0NTY3ODkwIn0.sig"] ∧
    String.mk (utf8Decode (base64DecodeBytes "eyJhIjoxfQ".data)) = "\x7b\"a\":1\x7d" ∧
    String.mk (utf8Decode (base64DecodeBytes "eyJx".data)) = "\x7b\"q" ∧
    jsonParse "\x7b\"q" = none ∧
    decodeJwtMatch "eyJhIjoxfQ.eyJx.s" = none ∧
    decodeJwtMatch "eyJhbGciOiJIUzI1NiJ9.eyJzdWIiOiIxMjM0NTY3ODkwIn0.sig" =
      some "\x7b\n  \"header\": \x7b\n    \"alg\": \"HS256\"\n  \x7d,\n  \"payload\": \x7b\n    \"sub\": \"1234567890\"\n  \x7d,\n  \"signature\": \"sig\"\n\x7d" ∧
    extractAndDecodeJWT
      "eyJhIjoxfQ.eyJx.s and eyJhbGciOiJIUzI1NiJ9.eyJzdWIiOiIxMjM0NTY3ODkwIn0.sig" = none ∧
    (manipulateString 0
        "eyJhIjoxfQ.eyJx.s and eyJhbGciOiJIUzI1NiJ9.eyJzdWIiOiIxMjM0NTY3ODkwIn0.sig").find?
        (fun r => r.key = "Extract and Decode JWT") =
      some ⟨"Extract and Decode JWT", ""⟩ := by
  exact ⟨rfl, rfl, rfl, rfl, rfl, rfl, rfl, rfl⟩

/-- C5 (amended): in "Extract and Decode JWT" a match whose header or
payload fails to decode as JSON makes the WHOLE transform fail (the throw
escapes the `map` callback), so the runner records the empty string for
the entry; the raw-text fallback fires only when a match does not split
into exactly three dot-separated segments, which the regex never
produces. -/
theorem extractAndDecodeJWT_whole_fails_on_bad_match :
    (∀ (text m : String), m ∈ jwtMatches text → decodeJwtMatch m = none →
      extractAndDecodeJWT text = none) ∧
    (∀ m : String, ((m.data.splitOn '.').map String.mk).length ≠ 3 →
      decodeJwtMatch m = some m) := by
  constructor
  · intro text m hmem hnone
    unfold extractAndDecodeJWT
    rw [mapOption_eq_none decodeJwtMatch (jwtMatches text) m hmem hnone]
    rfl
  · intro m hlen
    unfold decodeJwtMatch
    split
    · next p0 p1 p2 heq =>
      exact absurd (by rw [heq]; rfl) hlen
    · rfl

/-- Witness for `extractAndDecodeJWT_whole_fails_on_bad_match` at
concrete inputs. -/
theorem extractAndDecodeJWT_whole_fails_on_bad_match_witness :
    extractAndDecodeJWT
      "eyJhIjoxfQ.eyJx.s and eyJhbGciOiJIUzI1NiJ9.eyJzdWIiOiIxMjM0NTY3ODkwIn0.sig" = none ∧
    decodeJwtMatch "nodots" = some "nodots" :=
  ⟨extractAndDecodeJWT_whole_fails_on_bad_match.1
      "eyJhIjoxfQ.eyJx.s and eyJhbGciOiJIUzI1NiJ9.eyJzdWIiOiIxMjM0NTY3ODkwIn0.sig"
      "eyJhIjoxfQ.eyJx.s" (by decide) (by rfl),
   extractAndDecodeJWT_whole_fails_on_bad_match.2 "nodots" (by decide)⟩

/-- C6 (counterexample): on "FooBar baz" the first token is "Foo", which
contains an uppercase letter; the claim predicts a fully lowercased first
token ("fooBarBaz"), but the code passes the first token through
unchanged (`index === 0 ? word : ...`) and produces "FooBarBaz". -/
theorem convertCamelCase_keeps_first_token :
    splitIntoWords (jsTrim "FooBar baz") = ["Foo", "Bar", "baz"] ∧
    convertCamelCase "FooBar baz" = some "FooBarBaz" ∧
    convertCamelCaseSpec "FooBar baz" = "fooBarBaz" ∧
    ("FooBarBaz" : String) ≠ "fooBarBaz" := by
  refine ⟨rfl, rfl, rfl, ?_⟩
  decide

/-- Applying `mapIdx` with a function that ignores the index is `map`. -/
theorem mapIdx_eq_map_of_ignores {α β : Type} (cap : α → β) :
    ∀ (l : List α) (g : Nat → α → β), (∀ i w, g i w = cap w) →
      List.mapIdx g l = l.map cap := by
  intro l
  induction l with
  | nil => intro g _; rfl
  | cons a t ih =>
    intro g hg
    rw [List.mapIdx_cons, hg 0 a, List.map_cons, ih _ (fun i w => hg (i + 1) w)]

/-- Unfolding `String.join` of a cons. -/
theorem stringJoin_cons (s : String) (l : List String) :
    String.join (s :: l) = s ++ String.join l := by
  have hfold : ∀ (l : List String) (acc : String),
      l.foldl (· ++ ·) acc = acc ++ l.foldl (· ++ ·) "" := by
    intro l
    induction l with
    | nil => intro acc; simp
    | cons a t ih =>
      intro acc
      simp only [List.foldl_cons]
      rw [ih (acc ++ a), ih ("" ++ a)]
      simp [String.append_assoc]
  show (s :: l).foldl (· ++ ·) "" = s ++ l.foldl (· ++ ·) ""
  simp only [List.foldl_cons]
  rw [hfold l ("" ++ s)]
  simp

/-- C6 (amended): "Convert camelCase" leaves the first token UNCHANGED
and capitalizes (first letter uppercased, remainder unchanged) each
subsequent token, joining with no separator; in particular uppercase
letters in the first token survive. -/
theorem convertCamelCase_first_unchanged :
    ∀ (text w : String) (ws : List String),
      splitIntoWords (jsTrim text) = w :: ws →
      convertCamelCase text = some (w ++ String.join (ws.map capitalizeWord)) := by
  intro text w ws h
  unfold convertCamelCase
  rw [h, List.mapIdx_cons]
  rw [mapIdx_eq_map_of_ignores capitalizeWord ws _ (fun i w2 => by simp)]
  rw [if_pos rfl, stringJoin_cons]

/-- Witness for `convertCamelCase_first_unchanged` at a concrete input. -/
theorem convertCamelCase_first_unchanged_witness :
    convertCamelCase "FooBar baz" =
      some ("Foo" ++ String.join (["Bar", "baz"].map capitalizeWord)) :=
  convertCamelCase_first_unchanged "FooBar baz" "Foo" ["Bar", "baz"] (by rfl)

/-- Decoding a nonempty byte list yields at least one character (possibly
U+FFFD). -/
theorem utf8DecodeAux_ne_nil (fuel : Nat) (b : Nat) (rest : List Nat) :
    utf8DecodeAux (fuel + 1) (b :: rest) ≠ [] := by
  unfold utf8DecodeAux
  repeat' split
  all_goals simp

/-- Applying `utf8Decode` to a nonempty byte list yields a nonempty list. -/
theorem utf8Decode_ne_nil (l : List Nat) (h : l ≠ []) : utf8Decode l ≠ [] := by
  cases l with
  | nil => exact absurd rfl h
  | cons b rest =>
    unfold utf8Decode
    rw [List.length_cons]
    exact utf8DecodeAux_ne_nil rest.length b rest

/-- C8 (counterexample): the decoders are forgiving, not failing.  The
input "68zz" is not valid hex, yet "Hex decoding" yields "h" (Node
truncates at the first non-hex character and decodes the prefix "68");
"aG!k" is not valid base64, yet "Base64 decoding" yields "hi" (Node
ignores the invalid "!").  Both values are nonempty, contradicting the
claimed empty result. -/
theorem decode_invalid_not_always_empty :
    hexDecoding "68zz" = some "h" ∧
    base64Decoding "aG!k" = some "hi" ∧
    (manipulateString 0 "68zz").find? (fun r => r.key = "Hex decoding") =
      some ⟨"Hex decoding", "h"⟩ ∧
    (manipulateString 0 "aG!k").find? (fun r => r.key = "Base64 decoding") =
      some ⟨"Base64 decoding", "hi"⟩ ∧
    ("h" : String) ≠ "" ∧ ("hi" : String) ≠ "" := by
  refine ⟨rfl, rfl, rfl, rfl, ?_, ?_⟩ <;> decide

/-- C8 (amended): the decode transforms never fail: "Hex decoding"
always yields the UTF-8 reading of the longest prefix of complete hex
pairs, and "Base64 decoding" the UTF-8 reading of the sextets remaining
after invalid characters are discarded; the result is the empty string
exactly when that decoded byte list is empty (so invalid input can yield
nonempty output). -/
theorem decode_entries_forgiving :
    (∀ (now : Int) (s : String),
      (manipulateString now s).find? (fun r => r.key = "Hex decoding") =
        some ⟨"Hex decoding", String.mk (utf8Decode (hexLeadingPairs s.data))⟩ ∧
      (manipulateString now s).find? (fun r => r.key = "Base64 decoding") =
        some ⟨"Base64 decoding", String.mk (utf8Decode (base64DecodeBytes s.data))⟩) ∧
    (∀ s : String, hexDecoding s = some "" ↔ hexLeadingPairs s.data = []) ∧
    (∀ s : String, base64Decoding s = some "" ↔ base64DecodeBytes s.data = []) := by
  refine ⟨fun now s => ⟨rfl, rfl⟩, ?_, ?_⟩
  · intro s
    constructor
    · intro h
      by_contra hp
      apply utf8Decode_ne_nil (hexLeadingPairs s.data) hp
      have h2 : String.mk (utf8Decode (hexLeadingPairs s.data)) = "" :=
        Option.some.inj h
      simpa using congrArg String.data h2
    · intro h
      unfold hexDecoding
      rw [h]
      rfl
  · intro s
    constructor
    · intro h
      by_contra hp
      apply utf8Decode_ne_nil (base64DecodeBytes s.data) hp
      have h2 : String.mk (utf8Decode (base64DecodeBytes s.data)) = "" :=
        Option.some.inj h
      simpa using congrArg String.data h2
    · intro h
      unfold base64Decoding
      rw [h]
      rfl

theorem printable_chars {s : String} (h : printableText s = true) :
    ∀ c ∈ s.data, 0x20 ≤ c.toNat ∧ c.toNat ≤ 0x7e := by
  intro c hc
  have h2 := List.all_eq_true.mp h c hc
  simpa using h2

theorem utf8EncodeChar_ascii (c : Char) (h : c.toNat < 0x80) :
    utf8EncodeChar c = [c.toNat] := by
  simp [utf8EncodeChar, h]

theorem utf8Encode_ascii : ∀ (l : List Char), (∀ c ∈ l, c.toNat < 0x80) →
    l.foldr (fun c acc => utf8EncodeChar c ++ acc) [] = l.map Char.toNat := by
  intro l
  induction l with
  | nil => intro _; rfl
  | cons c rest ih =>
    intro h
    rw [List.foldr_cons, List.map_cons,
      utf8EncodeChar_ascii c (h c (List.mem_cons_self c rest)),
      ih (fun d hd => h d (List.mem_cons_of_mem c hd))]
    rfl

theorem utf8DecodeAux_ascii : ∀ (fuel : Nat) (l : List Nat),
    (∀ b ∈ l, b < 0x80) → l.length ≤ fuel →
    utf8DecodeAux fuel l = l.map Char.ofNat := by
  intro fuel
  induction fuel with
  | zero =>
    intro l _ hlen
    rw [List.eq_nil_of_length_eq_zero (Nat.le_zero.mp hlen)]
    rfl
  | succ f ih =>
    intro l h hlen
    cases l with
    | nil => rfl
    | cons b rest =>
      unfold utf8DecodeAux
      rw [if_pos (h b (List.mem_cons_self b rest))]
      rw [ih rest (fun d hd => h d (List.mem_cons_of_mem b hd))
        (by simpa using Nat.succ_le_succ_iff.mp hlen)]
      rfl

theorem utf8Decode_ascii (l : List Nat) (h : ∀ b ∈ l, b < 0x80) :
    utf8Decode l = l.map Char.ofNat :=
  utf8DecodeAux_ascii l.length l h (Nat.le_refl _)

theorem hexVal_radixDigitChar : ∀ n : Nat, n < 16 →
    hexVal (radixDigitChar n) = some n := by decide

theorem hexLeadingPairs_bytesToHex : ∀ (l : List Nat), (∀ b ∈ l, b < 256) →
    hexLeadingPairs (bytesToHex l) = l := by
  intro l
  induction l with
  | nil => intro _; rfl
  | cons b rest ih =>
    intro h
    have hb := h b (List.mem_cons_self b rest)
    show hexLeadingPairs (radixDigitChar (b / 16) :: radixDigitChar (b % 16) ::
      bytesToHex rest) = b :: rest
    unfold hexLeadingPairs
    rw [show hexVal (radixDigitChar (b / 16)) = some (b / 16) from
        hexVal_radixDigitChar _ (by omega),
      show hexVal (radixDigitChar (b % 16)) = some (b % 16) from
        hexVal_radixDigitChar _ (by omega)]
    show (b / 16 * 16 + b % 16) :: hexLeadingPairs (bytesToHex rest) = b :: rest
    have harith : b / 16 * 16 + b % 16 = b := by omega
    rw [harith, ih (fun d hd => h d (List.mem_cons_of_mem b hd))]

/-- C9 part 1: hex decode inverts hex encode on printable text. -/
theorem hexRoundTrip (x : String) (h : printableText x = true) :
    (hexEncoding x).bind hexDecoding = some x := by
  have hchars := printable_chars h
  have hlt : ∀ c ∈ x.data, c.toNat < 0x80 := fun c hc => by
    have := hchars c hc; omega
  show hexDecoding (String.mk (bytesToHex (utf8Encode x))) = some x
  unfold hexDecoding
  show some (String.mk (utf8Decode (hexLeadingPairs (bytesToHex (utf8Encode x))))) =
    some x
  unfold utf8Encode
  rw [utf8Encode_ascii x.data hlt]
  rw [hexLeadingPairs_bytesToHex _ (by
    intro b hb
    rw [List.mem_map] at hb
    obtain ⟨c, hc, rfl⟩ := hb
    have := hchars c hc
    omega)]
  rw [utf8Decode_ascii _ (by
    intro b hb
    rw [List.mem_map] at hb
    obtain ⟨c, hc, rfl⟩ := hb
    exact hlt c hc)]
  rw [List.map_map]
  have : (Char.ofNat ∘ Char.toNat) = id := funext Char.ofNat_toNat
  rw [this, List.map_id]

theorem base64CharVal_base64Char : ∀ n : Nat, n < 64 →
    base64CharVal (base64Char n) = some n := by decide

theorem base64_decode_encode : ∀ (l : List Nat), (∀ b ∈ l, b < 256) →
    base64DecodeBytes (bytesToBase64 l) = l
  | [], _ => rfl
  | [b1], h => by
    have hb1 := h b1 (List.mem_cons_self b1 [])
    show base64DecodeBytes [base64Char (b1 / 4), base64Char (b1 % 4 * 16), '=', '='] =
      [b1]
    unfold base64DecodeBytes
    rw [show (([base64Char (b1 / 4), base64Char (b1 % 4 * 16), '=',
        '=']).filterMap base64CharVal) = [b1 / 4, b1 % 4 * 16] by
      simp [List.filterMap_cons, base64CharVal_base64Char (b1 / 4) (by omega),
        base64CharVal_base64Char (b1 % 4 * 16) (by omega),
        show base64CharVal '=' = none from rfl]]
    show [b1 / 4 * 4 + b1 % 4 * 16 / 16] = [b1]
    congr 1
    omega
  | [b1, b2], h => by
    have hb1 := h b1 (by simp)
    have hb2 := h b2 (by simp)
    show base64DecodeBytes [base64Char (b1 / 4), base64Char (b1 % 4 * 16 + b2 / 16),
      base64Char (b2 % 16 * 4), '='] = [b1, b2]
    unfold base64DecodeBytes
    rw [show (([base64Char (b1 / 4), base64Char (b1 % 4 * 16 + b2 / 16),
        base64Char (b2 % 16 * 4), '=']).filterMap base64CharVal) =
        [b1 / 4, b1 % 4 * 16 + b2 / 16, b2 % 16 * 4] by
      simp [List.filterMap_cons, base64CharVal_base64Char (b1 / 4) (by omega),
        base64CharVal_base64Char (b1 % 4 * 16 + b2 / 16) (by omega),
        base64CharVal_base64Char (b2 % 16 * 4) (by omega),
        show base64CharVal '=' = none from rfl]]
    show [b1 / 4 * 4 + (b1 % 4 * 16 + b2 / 16) / 16,
      (b1 % 4 * 16 + b2 / 16) % 16 * 16 + b2 % 16 * 4 / 4] = [b1, b2]
    have e1 : b1 / 4 * 4 + (b1 % 4 * 16 + b2 / 16) / 16 = b1 := by omega
    have e2 : (b1 % 4 * 16 + b2 / 16) % 16 * 16 + b2 % 16 * 4 / 4 = b2 := by omega
    rw [e1, e2]
  | b1 :: b2 :: b3 :: rest, h => by
    have hb1 := h b1 (by simp)
    have hb2 := h b2 (by simp)
    have hb3 := h b3 (by simp)
    have ih := base64_decode_encode rest (fun b hb => h b (by simp [hb]))
    show base64DecodeBytes (base64Char (b1 / 4) ::
      base64Char (b1 % 4 * 16 + b2 / 16) :: base64Char (b2 % 16 * 4 + b3 / 64) ::
      base64Char (b3 % 64) :: bytesToBase64 rest) = b1 :: b2 :: b3 :: rest
    unfold base64DecodeBytes at ih ⊢
    rw [List.filterMap_cons, base64CharVal_base64Char (b1 / 4) (by omega),
      List.filterMap_cons, base64CharVal_base64Char (b1 % 4 * 16 + b2 / 16) (by omega),
      List.filterMap_cons, base64CharVal_base64Char (b2 % 16 * 4 + b3 / 64) (by omega),
      List.filterMap_cons, base64CharVal_base64Char (b3 % 64) (by omega)]
    show (b1 / 4 * 4 + (b1 % 4 * 16 + b2 / 16) / 16) ::
      ((b1 % 4 * 16 + b2 / 16) % 16 * 16 + (b2 % 16 * 4 + b3 / 64) / 4) ::
      ((b2 % 16 * 4 + b3 / 64) % 4 * 64 + b3 % 64) ::
      sextetsToBytes ((bytesToBase64 rest).filterMap base64CharVal) =
      b1 :: b2 :: b3 :: rest
    have e1 : b1 / 4 * 4 + (b1 % 4 * 16 + b2 / 16) / 16 = b1 := by omega
    have e2 : (b1 % 4 * 16 + b2 / 16) % 16 * 16 + (b2 % 16 * 4 + b3 / 64) / 4 = b2 := by
      omega
    have e3 : (b2 % 16 * 4 + b3 / 64) % 4 * 64 + b3 % 64 = b3 := by omega
    rw [e1, e2, e3, ih]

/-- C9 part 2: base64 decode inverts base64 encode on printable text. -/
theorem base64RoundTrip (x : String) (h : printableText x = true) :
    (base64Encoding x).bind base64Decoding = some x := by
  have hchars := printable_chars h
  have hlt : ∀ c ∈ x.data, c.toNat < 0x80 := fun c hc => by
    have := hchars c hc; omega
  show base64Decoding (String.mk (bytesToBase64 (utf8Encode x))) = some x
  unfold base64Decoding
  show some (String.mk (utf8Decode (base64DecodeBytes
    (bytesToBase64 (utf8Encode x))))) = some x
  unfold utf8Encode
  rw [utf8Encode_ascii x.data hlt]
  rw [base64_decode_encode _ (by
    intro b hb
    rw [List.mem_map] at hb
    obtain ⟨c, hc, rfl⟩ := hb
    have := hchars c hc
    omega)]
  rw [utf8Decode_ascii _ (by
    intro b hb
    rw [List.mem_map] at hb
    obtain ⟨c, hc, rfl⟩ := hb
    exact hlt c hc)]
  rw [List.map_map]
  have : (Char.ofNat ∘ Char.toNat) = id := funext Char.ofNat_toNat
  rw [this, List.map_id]

theorem hexVal_upperHexDigit : ∀ n : Nat, n < 16 →
    hexVal (upperHexDigit n) = some n := by decide

theorem unreserved_ne_percent {c : Char} (h : isUriUnreserved c = true) :
    ¬ c = '%' := by
  intro hc
  subst hc
  exact absurd h (by decide)

theorem uriDecodeBytes_cons_notpercent (c : Char) (rest : List Char)
    (h : ¬ c = '%') :
    uriDecodeBytes (c :: rest) =
      (uriDecodeBytes rest).map (fun bs => utf8EncodeChar c ++ bs) := by
  conv_lhs => unfold uriDecodeBytes
  rw [if_neg h]

theorem uriDecodeBytes_percent_eq (c1 c2 : Char) (rest : List Char) :
    uriDecodeBytes ('%' :: c1 :: c2 :: rest) =
      match hexVal c1, hexVal c2 with
      | some h1, some h2 => (uriDecodeBytes rest).map ((h1 * 16 + h2) :: ·)
      | _, _ => none := rfl

theorem uriDecodeBytes_encode : ∀ (l : List Char),
    (∀ c ∈ l, 0x20 ≤ c.toNat ∧ c.toNat ≤ 0x7e) →
    uriDecodeBytes (l.foldr
      (fun c acc =>
        if isUriUnreserved c then c :: acc
        else (utf8EncodeChar c).foldr (fun b acc2 => percentByte b ++ acc2) acc)
      []) = some (l.map Char.toNat) := by
  intro l
  induction l with
  | nil => intro _; rfl
  | cons c rest ih =>
    intro h
    have hc := h c (List.mem_cons_self c rest)
    have hrest := ih (fun d hd => h d (List.mem_cons_of_mem c hd))
    rw [List.foldr_cons]
    by_cases hu : isUriUnreserved c = true
    · rw [if_pos hu]
      rw [uriDecodeBytes_cons_notpercent c _ (unreserved_ne_percent hu), hrest]
      rw [utf8EncodeChar_ascii c (by omega)]
      rfl
    · rw [if_neg hu, utf8EncodeChar_ascii c (by omega)]
      rw [List.foldr_cons, List.foldr_nil]
      show uriDecodeBytes ('%' :: upperHexDigit (c.toNat / 16) ::
        upperHexDigit (c.toNat % 16) :: _) = _
      rw [uriDecodeBytes_percent_eq]
      rw [hexVal_upperHexDigit (c.toNat / 16) (by omega),
        hexVal_upperHexDigit (c.toNat % 16) (by omega)]
      show (uriDecodeBytes _).map ((c.toNat / 16 * 16 + c.toNat % 16) :: ·) = _
      have harith : c.toNat / 16 * 16 + c.toNat % 16 = c.toNat := by omega
      rw [harith]
      have happ : ∀ l : List Char, List.append [] l = l := fun l => rfl
      rw [happ, hrest]
      rfl

theorem utf8DecodeStrictAux_ascii : ∀ (fuel : Nat) (l : List Nat),
    (∀ b ∈ l, b < 0x80) → l.length ≤ fuel →
    utf8DecodeStrictAux fuel l = some (l.map Char.ofNat) := by
  intro fuel
  induction fuel with
  | zero =>
    intro l _ hlen
    rw [List.eq_nil_of_length_eq_zero (Nat.le_zero.mp hlen)]
    rfl
  | succ f ih =>
    intro l h hlen
    cases l with
    | nil => rfl
    | cons b rest =>
      unfold utf8DecodeStrictAux
      rw [if_pos (h b (List.mem_cons_self b rest))]
      rw [ih rest (fun d hd => h d (List.mem_cons_of_mem b hd))
        (by simpa using Nat.succ_le_succ_iff.mp hlen)]
      rfl

/-- C9 part 3: URL decode inverts URL encode on printable text. -/
theorem urlRoundTrip (x : String) (h : printableText x = true) :
    (urlEncoding x).bind urlDecoding = some x := by
  have hchars := printable_chars h
  show urlDecoding (encodeURIComponent x) = some x
  unfold urlDecoding encodeURIComponent
  show (match uriDecodeBytes (x.data.foldr _ []) with
    | none => none
    | some bytes => (utf8DecodeStrict bytes).map String.mk) = some x
  rw [uriDecodeBytes_encode x.data hchars]
  show (utf8DecodeStrict (x.data.map Char.toNat)).map String.mk = some x
  unfold utf8DecodeStrict
  rw [utf8DecodeStrictAux_ascii _ _ (by
    intro b hb
    rw [List.mem_map] at hb
    obtain ⟨c, hc, rfl⟩ := hb
    have := hchars c hc
    omega) (Nat.le_refl _)]
  rw [List.map_map]
  have hcomp : (Char.ofNat ∘ Char.toNat) = id := funext Char.ofNat_toNat
  rw [hcomp, List.map_id]
  rfl

theorem htmlEncodeChar_ne_nil (c : Char) : (htmlEncodeChar c).length ≠ 0 := by
  unfold htmlEncodeChar
  repeat' split
  all_goals simp

theorem htmlDecodeAux_amp (f : Nat) (rest : List Char) :
    htmlDecodeAux (f + 1) ('&' :: 'a' :: 'm' :: 'p' :: ';' :: rest) =
      '&' :: htmlDecodeAux f rest := rfl

theorem htmlDecodeAux_lt (f : Nat) (rest : List Char) :
    htmlDecodeAux (f + 1) ('&' :: 'l' :: 't' :: ';' :: rest) =
      '<' :: htmlDecodeAux f rest := rfl

theorem htmlDecodeAux_gt (f : Nat) (rest : List Char) :
    htmlDecodeAux (f + 1) ('&' :: 'g' :: 't' :: ';' :: rest) =
      '>' :: htmlDecodeAux f rest := rfl

theorem htmlDecodeAux_quot (f : Nat) (rest : List Char) :
    htmlDecodeAux (f + 1) ('&' :: 'q' :: 'u' :: 'o' :: 't' :: ';' :: rest) =
      '"' :: htmlDecodeAux f rest := rfl

theorem htmlDecodeAux_apos (f : Nat) (rest : List Char) :
    htmlDecodeAux (f + 1) ('&' :: 'a' :: 'p' :: 'o' :: 's' :: ';' :: rest) =
      Char.ofNat 39 :: htmlDecodeAux f rest := rfl

theorem htmlDecodeAux_cons (f : Nat) (c : Char) (rest : List Char)
    (h : ¬ c = '&') :
    htmlDecodeAux (f + 1) (c :: rest) = c :: htmlDecodeAux f rest := by
  conv_lhs => unfold htmlDecodeAux
  rw [if_neg h]

theorem htmlDecode_encode : ∀ (cs : List Char) (fuel : Nat),
    (cs.foldr (fun c acc => htmlEncodeChar c ++ acc) []).length ≤ fuel →
    htmlDecodeAux fuel (cs.foldr (fun c acc => htmlEncodeChar c ++ acc) []) = cs := by
  intro cs
  induction cs with
  | nil =>
    intro fuel _
    cases fuel <;> rfl
  | cons c rest ih =>
    intro fuel hlen
    rw [List.foldr_cons] at hlen ⊢
    have hchunk := htmlEncodeChar_ne_nil c
    have hfuel : ∃ f, fuel = f + 1 := by
      cases fuel with
      | zero =>
        exfalso
        rw [List.length_append] at hlen
        omega
      | succ f => exact ⟨f, rfl⟩
    obtain ⟨f, rfl⟩ := hfuel
    have hrestlen : (rest.foldr (fun c acc => htmlEncodeChar c ++ acc) []).length ≤ f := by
      rw [List.length_append] at hlen
      omega
    by_cases h1 : c = '&'
    · subst h1
      rw [show htmlEncodeChar '&' ++
          (rest.foldr (fun c acc => htmlEncodeChar c ++ acc) []) =
          '&' :: 'a' :: 'm' :: 'p' :: ';' ::
            (rest.foldr (fun c acc => htmlEncodeChar c ++ acc) []) from rfl]
      rw [htmlDecodeAux_amp, ih f hrestlen]
    · by_cases h2 : c = '<'
      · subst h2
        rw [show htmlEncodeChar '<' ++
            (rest.foldr (fun c acc => htmlEncodeChar c ++ acc) []) =
            '&' :: 'l' :: 't' :: ';' ::
              (rest.foldr (fun c acc => htmlEncodeChar c ++ acc) []) from rfl]
        rw [htmlDecodeAux_lt, ih f hrestlen]
      · by_cases h3 : c = '>'
        · subst h3
          rw [show htmlEncodeChar '>' ++
              (rest.foldr (fun c acc => htmlEncodeChar c ++ acc) []) =
              '&' :: 'g' :: 't' :: ';' ::
                (rest.foldr (fun c acc => htmlEncodeChar c ++ acc) []) from rfl]
          rw [htmlDecodeAux_gt, ih f hrestlen]
        · by_cases h4 : c = '"'
          · subst h4
            rw [show htmlEncodeChar '"' ++
                (rest.foldr (fun c acc => htmlEncodeChar c ++ acc) []) =
                '&' :: 'q' :: 'u' :: 'o' :: 't' :: ';' ::
                  (rest.foldr (fun c acc => htmlEncodeChar c ++ acc) []) from rfl]
            rw [htmlDecodeAux_quot, ih f hrestlen]
          · by_cases h5 : c = Char.ofNat 39
            · subst h5
              rw [show htmlEncodeChar (Char.ofNat 39) ++
                  (rest.foldr (fun c acc => htmlEncodeChar c ++ acc) []) =
                  '&' :: 'a' :: 'p' :: 'o' :: 's' :: ';' ::
                    (rest.foldr (fun c acc => htmlEncodeChar c ++ acc) []) from rfl]
              rw [htmlDecodeAux_apos, ih f hrestlen]
            · have hchunkeq : htmlEncodeChar c = [c] := by
                unfold htmlEncodeChar
                rw [if_neg h1, if_neg h2, if_neg h3, if_neg h4, if_neg h5]
              rw [hchunkeq, List.cons_append, List.nil_append]
              rw [htmlDecodeAux_cons f c _ h1]
              rw [ih f (by rw [hchunkeq, List.length_append] at hlen; omega)]

/-- C9 part 4: HTML-entity decode inverts HTML-entity encode on printable
text. -/
theorem htmlRoundTrip (x : String) (_h : printableText x = true) :
    (htmlEncoding x).bind htmlDecoding = some x := by
  show htmlDecoding (String.mk (x.data.foldr (fun c acc => htmlEncodeChar c ++ acc)
    [])) = some x
  unfold htmlDecoding htmlDecodeList
  show some (String.mk (htmlDecodeAux _ _)) = some x
  rw [htmlDecode_encode x.data _ (Nat.le_refl _)]

/-- C9: each of the four byte-level encode/decode pairs round-trips on
every printable-text string: hex, base64, percent-encoding and HTML
entities. -/
theorem encode_decode_round_trips (x : String) (h : printableText x = true) :
    (hexEncoding x).bind hexDecoding = some x ∧
    (base64Encoding x).bind base64Decoding = some x ∧
    (urlEncoding x).bind urlDecoding = some x ∧
    (htmlEncoding x).bind htmlDecoding = some x :=
  ⟨hexRoundTrip x h, base64RoundTrip x h, urlRoundTrip x h, htmlRoundTrip x h⟩

/-- Witness for `encode_decode_round_trips` at a concrete printable
string. -/
theorem encode_decode_round_trips_witness :
    printableText "Hello, <World> & 42!" = true ∧
    ((hexEncoding "Hello, <World> & 42!").bind hexDecoding =
        some "Hello, <World> & 42!" ∧
      (base64Encoding "Hello, <World> & 42!").bind base64Decoding =
        some "Hello, <World> & 42!" ∧
      (urlEncoding "Hello, <World> & 42!").bind urlDecoding =
        some "Hello, <World> & 42!" ∧
      (htmlEncoding "Hello, <World> & 42!").bind htmlDecoding =
        some "Hello, <World> & 42!") :=
  ⟨by decide, encode_decode_round_trips "Hello, <World> & 42!" (by decide)⟩

theorem pjs_close (f : Nat) (rest : List Char) :
    parseJsonStringAux (f + 1) ('"' :: rest) = some ([], rest) := rfl

theorem pjs_backslash (f : Nat) (rest : List Char) :
    parseJsonStringAux (f + 1) ('\\' :: rest) =
      pjsEscape (parseJsonStringAux f) rest := rfl

theorem pjs_plain (f : Nat) (c : Char) (rest : List Char) (h1 : ¬ c = '"')
    (h2 : ¬ c = '\\') (h3 : ¬ c.toNat < 0x20) :
    parseJsonStringAux (f + 1) (c :: rest) =
      (parseJsonStringAux f rest).map (fun p => (c :: p.1, p.2)) := by
  conv_lhs => unfold parseJsonStringAux
  rw [if_neg h1, if_neg h2, if_neg h3]

theorem pjsEscape_u (k : List Char → Option (List Char × List Char))
    (h1 h2 h3 h4 : Char) (rest : List Char) :
    pjsEscape k ('u' :: h1 :: h2 :: h3 :: h4 :: rest) =
      (match hexVal4 h1 h2 h3 h4 with
       | none => none
       | some code =>
         if 0xd800 ≤ code ∧ code ≤ 0xdfff then
           (k rest).map (fun p => (replChar :: p.1, p.2))
         else (k rest).map (fun p => (Char.ofNat code :: p.1, p.2))) := rfl

theorem pjs_escape_char (f : Nat) (c : Char) (rest : List Char) :
    parseJsonStringAux (f + 1) (jsonEscapeChar c ++ rest) =
      (parseJsonStringAux f rest).map (fun p => (c :: p.1, p.2)) := by
  by_cases h1 : c = '"'
  · subst h1
    rw [show jsonEscapeChar '"' ++ rest = '\\' :: '"' :: rest from rfl,
      pjs_backslash]
    rfl
  · by_cases h2 : c = '\\'
    · subst h2
      rw [show jsonEscapeChar '\\' ++ rest = '\\' :: '\\' :: rest from rfl,
        pjs_backslash]
      rfl
    · by_cases h3 : c = Char.ofNat 8
      · subst h3
        rw [show jsonEscapeChar (Char.ofNat 8) ++ rest = '\\' :: 'b' :: rest from rfl,
          pjs_backslash]
        rfl
      · by_cases h4 : c = Char.ofNat 12
        · subst h4
          rw [show jsonEscapeChar (Char.ofNat 12) ++ rest = '\\' :: 'f' :: rest from
            rfl, pjs_backslash]
          rfl
        · by_cases h5 : c = '\n'
          · subst h5
            rw [show jsonEscapeChar '\n' ++ rest = '\\' :: 'n' :: rest from rfl,
              pjs_backslash]
            rfl
          · by_cases h6 : c = '\r'
            · subst h6
              rw [show jsonEscapeChar '\r' ++ rest = '\\' :: 'r' :: rest from rfl,
                pjs_backslash]
              rfl
            · by_cases h7 : c = '\t'
              · subst h7
                rw [show jsonEscapeChar '\t' ++ rest = '\\' :: 't' :: rest from rfl,
                  pjs_backslash]
                rfl
              · by_cases h8 : c.toNat < 0x20
                · have hchunk : jsonEscapeChar c =
                      ['\\', 'u', '0', '0', radixDigitChar (c.toNat / 16),
                        radixDigitChar (c.toNat % 16)] := by
                    unfold jsonEscapeChar
                    rw [if_neg h1, if_neg h2, if_neg h3, if_neg h4, if_neg h5,
                      if_neg h6, if_neg h7, if_pos h8]
                  rw [hchunk]
                  rw [show ['\\', 'u', '0', '0', radixDigitChar (c.toNat / 16),
                      radixDigitChar (c.toNat % 16)] ++ rest =
                      '\\' :: 'u' :: '0' :: '0' :: radixDigitChar (c.toNat / 16) ::
                        radixDigitChar (c.toNat % 16) :: rest from rfl]
                  rw [pjs_backslash, pjsEscape_u]
                  rw [show hexVal4 '0' '0' (radixDigitChar (c.toNat / 16))
                        (radixDigitChar (c.toNat % 16)) =
                      some (c.toNat / 16 * 16 + c.toNat % 16) by
                    unfold hexVal4
                    rw [show hexVal '0' = some 0 from rfl,
                      hexVal_radixDigitChar (c.toNat / 16) (by omega),
                      hexVal_radixDigitChar (c.toNat % 16) (by omega)]
                    exact congrArg some (by omega)]
                  show (if 0xd800 ≤ c.toNat / 16 * 16 + c.toNat % 16 ∧
                      c.toNat / 16 * 16 + c.toNat % 16 ≤ 0xdfff then _ else _) = _
                  rw [if_neg (by omega)]
                  have harith : c.toNat / 16 * 16 + c.toNat % 16 = c.toNat := by omega
                  rw [harith, Char.ofNat_toNat]
                · have hchunk : jsonEscapeChar c = [c] := by
                    unfold jsonEscapeChar
                    rw [if_neg h1, if_neg h2, if_neg h3, if_neg h4, if_neg h5,
                      if_neg h6, if_neg h7, if_neg h8]
                  rw [hchunk, show [c] ++ rest = c :: rest from rfl]
                  exact pjs_plain f c rest h1 h2 h8

theorem pjs_escape_all : ∀ (cs : List Char) (f : Nat), cs.length + 1 ≤ f →
    parseJsonStringAux f
      ((cs.foldr (fun c acc => jsonEscapeChar c ++ acc) []) ++ ['"']) =
      some (cs, []) := by
  intro cs
  induction cs with
  | nil =>
    intro f hf
    obtain ⟨g, rfl⟩ : ∃ g, f = g + 1 := by
      cases f with
      | zero => omega
      | succ g => exact ⟨g, rfl⟩
    exact pjs_close g []
  | cons c rest ih =>
    intro f hf
    obtain ⟨g, rfl⟩ : ∃ g, f = g + 1 := by
      cases f with
      | zero => omega
      | succ g => exact ⟨g, rfl⟩
    rw [List.foldr_cons, List.append_assoc, pjs_escape_char,
      ih g (by simp at hf ⊢; omega)]
    rfl

theorem escape_all_length (cs : List Char) :
    cs.length ≤ (cs.foldr (fun c acc => jsonEscapeChar c ++ acc) []).length := by
  induction cs with
  | nil => simp
  | cons c rest ih =>
    rw [List.foldr_cons, List.length_append, List.length_cons]
    have : (jsonEscapeChar c).length ≠ 0 := by
      unfold jsonEscapeChar
      repeat' split
      all_goals simp
    omega

theorem pjv_string (fuel : Nat) (rest : List Char) :
    parseJsonValue (fuel + 1) ('"' :: rest) =
      (parseJsonString rest).map (fun p => (Json.str (String.mk p.1), p.2)) := rfl

theorem jsonParse_jsonQuote (x : String) :
    jsonParse (jsonQuote x) = some (Json.str x) := by
  unfold jsonParse
  have hdata : (jsonQuote x).data =
      '"' :: ((x.data.foldr (fun c acc => jsonEscapeChar c ++ acc) []) ++ ['"']) := by
    unfold jsonQuote
    rw [String.data_append, String.data_append]
    rfl
  rw [hdata, pjv_string]
  unfold parseJsonString
  rw [pjs_escape_all x.data _ (by
    rw [List.length_append]
    have h := escape_all_length x.data
    simp at h ⊢
    omega)]
  rfl

theorem jsonQuote_ne_empty (x : String) : jsonQuote x ≠ "" := by
  intro h
  have hdata := congrArg String.data h
  unfold jsonQuote at hdata
  rw [String.data_append, String.data_append] at hdata
  simp at hdata

/-- C10: "Escape as JSON string" never fails; its value is the quoted
JSON string literal -- nonempty, starting with a double quote -- and
parsing that value back as JSON recovers exactly the input string. -/
theorem escapeAsJSONString_round_trip :
    ∀ x : String,
      escapeAsJSONString x = some (jsonQuote x) ∧
      jsonQuote x ≠ "" ∧
      (jsonQuote x).data.head? = some '"' ∧
      jsonParse (jsonQuote x) = some (Json.str x) := by
  intro x
  refine ⟨rfl, jsonQuote_ne_empty x, ?_, jsonParse_jsonQuote x⟩
  unfold jsonQuote
  rw [String.data_append, String.data_append]
  rfl

end ManipulateString

